import Mathlib

/-!
# bqrunner: the query pipeline of `queries.go`

A shallow embedding of `queries.go` (package `main` of `wintermi/bqrunner`).

* Go `string` values that are only passed around (SQL text, file names, error
  messages) are Lean `String`s.  The `delimiter` argument, which the source
  indexes byte-wise (`delimiter[0]`), is a list of bytes.
* Go `int` / `int64` values are `Int`; no computation of the file comes near the
  64-bit bounds (they count files and rows).
* `error` values are `Option String`: `none` is `nil`, `some msg` carries the
  message.
* `time.Time` is `Nat`: `0` is the zero value, and every `time.Now()` returns the
  next reading of a clock that ticks at each call, so readings are positive.
* Everything outside the file (file system, BigQuery client, random source) is
  an explicit environment argument; the effects of a run are recorded as a list
  of events in a `World`.
-/

namespace Bqrunner

/-! ## Data model (`queries.go` lines 32-48) -/

/-- A `time.Time`; `0` is the zero value. -/
abbrev Time := Nat

/-- The struct `QueryDetails`. -/
structure QueryDetails where
  SQL : String
  InputFile : String
  OutputFile : String
  Number : Int
  Error : Option String
  QueryStartTime : Time
  QueryEndTime : Time
  FirstRowReturnedTime : Time
  AllRowsReturnedTime : Time
  TotalRowsReturned : Int
deriving DecidableEq, Repr

/-- The struct `Queries`. -/
structure Queries where
  Query : List QueryDetails
  ExecutionOrder : List Int
deriving DecidableEq, Repr

/-! ## `LoadQueries` (lines 53-106) -/

/-- Left padding of a digit string with `'0'` up to `width` characters; longer
digit strings are kept whole. -/
def zeroPad (width : Nat) (digits : List Char) : List Char :=
  List.replicate (width - digits.length) '0' ++ digits

/-- The verb `%06d` of `fmt.Sprintf` on a Go `int`: decimal digits, padded with
zeros to a width of six, the sign counting towards the width. -/
def sprintf06d (n : Int) : String :=
  if n < 0 then String.mk ('-' :: zeroPad 5 (Nat.toDigits 10 n.natAbs))
  else String.mk (zeroPad 6 (Nat.toDigits 10 n.toNat))

/-- The value of `fmt.Sprintf("results-query-%06d.output", queryCount)`. -/
def outputFileName (queryCount : Int) : String :=
  "results-query-" ++ sprintf06d queryCount ++ ".output"

/-- The value of `filepath.Abs(filepath.Join(outputPath, name))` (line 81) for
`outputPath` the absolute, clean path computed at line 56 and `name` a single
path element: the element is appended after one separator (`/`, as on Unix). -/
def joinAbs (outputPath name : String) : String :=
  outputPath ++ "/" ++ name

/-- What `LoadQueries` reads from outside the program. -/
structure LoadEnv where
  /-- The result of line 56,
  `filepath.Abs(filepath.Join(outputPath, time.Now().Format("2006-01-02.150405")))`. -/
  absOutputPath : String → Except String String
  /-- The function `filepath.Glob`. -/
  glob : String → Except String (List String)
  /-- The call `os.Stat(filename)` followed by `IsDir()`. -/
  stat : String → Except String Bool
  /-- The function `filepath.Abs` on a match; its error is discarded (line 80). -/
  abs : String → String
  /-- The function `ioutil.ReadFile`. -/
  readFile : String → Except String String

/-- The loop of lines 69-103; the state is the batch and `queryCount`.  The
second component is the returned `error`. -/
def LoadQueries.loop (env : LoadEnv) (outputPath : String) :
    List String → Queries → Int → Queries × Option String
  | [], queries, _ => (queries, none)
  | filename :: rest, queries, queryCount =>
    match env.stat filename with
    | .error err => (queries, some ("[LoadQueries] Failed To Get File Info: " ++ err))
    | .ok true => LoadQueries.loop env outputPath rest queries queryCount
    | .ok false =>
      let inputFile := env.abs filename
      let outputFile := joinAbs outputPath (outputFileName queryCount)
      match env.readFile inputFile with
      | .error err => (queries, some ("[LoadQueries] Read Input File Failed: " ++ err))
      | .ok buf =>
        let sql : QueryDetails :=
          { SQL := buf, InputFile := inputFile, OutputFile := outputFile, Number := queryCount,
            Error := none, QueryStartTime := 0, QueryEndTime := 0, FirstRowReturnedTime := 0,
            AllRowsReturnedTime := 0, TotalRowsReturned := 0 }
        LoadQueries.loop env outputPath rest
          { Query := queries.Query ++ [sql],
            ExecutionOrder := queries.ExecutionOrder ++ [queryCount - 1] }
          (queryCount + 1)

/-- The method `(queries *Queries) LoadQueries(inputPath, outputPath) error`: the
batch after the call and the returned `error`. -/
def LoadQueries (env : LoadEnv) (queries : Queries) (inputPath outputPath : String) :
    Queries × Option String :=
  match env.absOutputPath outputPath with
  | .error err => (queries, some ("[LoadQueries] Failed To Get Absolute Output Path: " ++ err))
  | .ok outputPath =>
    match env.glob inputPath with
    | .error err => (queries, some ("[LoadQueries] Glob Failed: " ++ err))
    | .ok matched => LoadQueries.loop env outputPath matched queries 1

/-- The batch a fresh `Queries` value holds. -/
def Queries.empty : Queries := { Query := [], ExecutionOrder := [] }

/-! ## `ShuffleExecutionOrder` (lines 111-120) -/

/-- The closure of line 115: `ExecutionOrder[i], ExecutionOrder[j] =
ExecutionOrder[j], ExecutionOrder[i]`.  Both indices are in range whenever
`rand.Shuffle` calls it; outside the range (where Go stops with a run-time
error) the order is returned as it is. -/
def swapOrder (order : List Int) (i j : Nat) : List Int :=
  match order[i]?, order[j]? with
  | some a, some b => (order.set i b).set j a
  | _, _ => order

/-- The loop of `rand.Shuffle`: for `i` from `n-1` down to `1`, draw `j` in
`[0, i]` and call `swap(i, j)`.  `rnd i` is the number the random source
produces for the draw at `i`. -/
def randShuffle.loop (rnd : Nat → Nat) : Nat → List Int → List Int
  | 0, order => order
  | i + 1, order => randShuffle.loop rnd i (swapOrder order (i + 1) (rnd (i + 1) % (i + 2)))

/-- The call `rand.Shuffle(n, swap)` with the swap closure of line 115. -/
def randShuffle (rnd : Nat → Nat) (n : Nat) (order : List Int) : List Int :=
  randShuffle.loop rnd (n - 1) order

/-- The method `ShuffleExecutionOrder(shuffle bool)`; `rnd` is the random source
seeded at line 113. -/
def ShuffleExecutionOrder (rnd : Nat → Nat) (queries : Queries) (shuffle : Bool) : Queries :=
  if shuffle then
    { queries with
      ExecutionOrder := randShuffle rnd queries.ExecutionOrder.length queries.ExecutionOrder }
  else queries

/-! ## The world a run acts on -/

/-- A result row, as the values `w.Write` receives (`rl.Row`). -/
abbrev Row := List String

/-- The fields set on the `bigquery.Query` before it is submitted (lines 180-185
and 238-243). -/
structure QueryConfig where
  Q : String
  DefaultProjectID : String
  DefaultDatasetID : String
  Location : String
  DisableQueryCache : Bool
  DryRun : Bool
deriving DecidableEq, Repr

/-- The effects of the program on what lies outside it, in the order they
happen.  A file-system event stands for a call that succeeded. -/
inductive Event where
  /-- The call `bigquery.NewClient(ctx, project)` succeeded. -/
  | newClient (project : String)
  /-- The deferred `client.Close()`. -/
  | clientClose
  /-- The runner is entered for the entry `index` of `ExecutionOrder`. -/
  | call (dryRun : Bool) (index : Int)
  /-- The call `os.MkdirAll(filepath.Dir(outputFile), 0700)` succeeded. -/
  | mkdirAll (outputFile : String)
  /-- The call `q.Read(ctx)`: the query is submitted for execution. -/
  | read (q : QueryConfig)
  /-- The call `q.Run(ctx)`: the query is submitted as a dry run. -/
  | run (q : QueryConfig)
  /-- The call `os.Create(outputFile)` succeeded. -/
  | create (outputFile : String)
  /-- The call `w.Write(row)` succeeded, with `w.Comma == comma`. -/
  | write (outputFile : String) (comma : Nat) (row : Row)
  /-- The deferred `w.Flush()`. -/
  | flush (outputFile : String)
  /-- The deferred `f.Close()`. -/
  | close (outputFile : String)
  /-- The call `qd.LogExecuteQuery()`, with the record it reads. -/
  | logExecuteQuery (qd : QueryDetails)
  /-- The call `qd.LogExecuteDryRun()`, with the record it reads. -/
  | logExecuteDryRun (qd : QueryDetails)
deriving DecidableEq, Repr

/-- The clock behind `time.Now()` and the events so far. -/
structure World where
  clock : Nat
  events : List Event
deriving DecidableEq, Repr

/-- One more event. -/
def World.emit (w : World) (e : Event) : World :=
  { w with events := w.events ++ [e] }

/-- The call `time.Now()`: the clock ticks and its new reading is returned. -/
def World.now (w : World) : Time × World :=
  (w.clock + 1, { w with clock := w.clock + 1 })

/-- How a call ends: it returns a value, or it stops with a run-time panic. -/
inductive Exit (α : Type) where
  | returned (value : α)
  | panicked (message : String)
deriving DecidableEq, Repr

/-- What one run of `ExecuteQuery` meets outside the program. -/
structure LiveEnv where
  /-- Whether `os.IsNotExist(err)` holds for `os.Stat(path)` (line 172). -/
  pathMissing : Bool
  /-- The error of `os.MkdirAll` (line 173). -/
  mkdirAll : Option String
  /-- The error of `q.Read(ctx)` (line 189). -/
  read : Option String
  /-- The error of `os.Create` (line 197). -/
  create : Option String
  /-- The rows the iterator yields, each with the error of `w.Write` on it. -/
  rows : List (Row × Option String)
  /-- What `it.Next` returns after these rows: `none` is `iterator.Done`,
  `some err` a fetch error. -/
  last : Option String

/-- What one run of `ExecuteDryRun` meets outside the program. -/
structure DryRunEnv where
  /-- The error of `q.Run(ctx)` (line 247). -/
  run : Option String
  /-- The value of `job.LastStatus().Err()` (line 255). -/
  status : Option String

/-- What one run of either runner meets. -/
structure RunEnv where
  live : LiveEnv
  dry : DryRunEnv

/-- The record `qd` points to and the world when a runner ends, and how it ends. -/
structure RunResult where
  qd : QueryDetails
  world : World
  exit : Exit Unit
deriving DecidableEq, Repr

/-! ## `ExecuteQuery` (lines 169-231) -/

/-- Lines 213-215: `if rowCount == 0 { qd.FirstRowReturnedTime = time.Now() }`. -/
def ExecuteQuery.stamp (rowCount : Int) (qd : QueryDetails) (w : World) : QueryDetails × World :=
  if rowCount = 0 then ({ qd with FirstRowReturnedTime := w.now.1 }, w.now.2) else (qd, w)

/-- The loop of lines 211-230.  The first argument lists what the calls of
`it.Next` still have to yield; the result is the record and the world at the
`break` or `return` that leaves the loop. -/
def ExecuteQuery.loop (outputFile : String) (comma : Nat) (last : Option String) :
    List (Row × Option String) → Int → QueryDetails → World → QueryDetails × World
  | [], rowCount, qd, w =>
    -- `it.Next` returns `iterator.Done` or a fetch error
    let s := ExecuteQuery.stamp rowCount qd w
    match last with
    | none =>
      ({ s.1 with AllRowsReturnedTime := s.2.now.1, TotalRowsReturned := rowCount }, s.2.now.2)
    | some err => ({ s.1 with Error := some err }, s.2)
  | (row, writeErr) :: rest, rowCount, qd, w =>
    -- `it.Next` returns `nil` and `rl.Row` is `row`
    let s := ExecuteQuery.stamp rowCount qd w
    match writeErr with
    | some _ => ({ s.1 with Error := some "Failed Writing to the Output File" }, s.2)
    | none =>
      ExecuteQuery.loop outputFile comma last rest (rowCount + 1) s.1
        (s.2.emit (.write outputFile comma row))

/-- The conversion `rune(delimiter[0])` of line 206: the first byte of the
string as a code point, `none` when the index is out of range. -/
def delimiterComma (delimiter : List UInt8) : Option Nat :=
  match delimiter with
  | [] => none
  | b :: _ => some b.toNat

/-- The method `(qd *QueryDetails) ExecuteQuery(...)`. -/
def ExecuteQuery (qd : QueryDetails) (project dataset location : String)
    (disableQueryCache : Bool) (delimiter : List UInt8) (env : LiveEnv) (w : World) :
    RunResult :=
  -- Make Sure the Output File Path Exists
  if env.pathMissing && env.mkdirAll.isSome then
    { qd := { qd with Error := some "Failed to Create the Output File Path" }, world := w,
      exit := .returned () }
  else
    let w := if env.pathMissing then w.emit (.mkdirAll qd.OutputFile) else w
    -- Create and Configure Query
    let q : QueryConfig :=
      { Q := qd.SQL, DefaultProjectID := project, DefaultDatasetID := dataset,
        Location := location, DisableQueryCache := disableQueryCache, DryRun := false }
    -- Initiate the Query Job
    let qd := { qd with QueryStartTime := w.now.1 }
    let w := w.now.2.emit (.read q)
    let qd := { qd with QueryEndTime := w.now.1 }
    let w := w.now.2
    match env.read with
    | some err => { qd := { qd with Error := some err }, world := w, exit := .returned () }
    | none =>
      -- Open the Output File
      match env.create with
      | some _ =>
        { qd := { qd with Error := some "Failed to Open the Output File" }, world := w,
          exit := .returned () }
      | none =>
        -- the file `f`, named by the path it was created at
        let f := qd.OutputFile
        let w := w.emit (.create f)
        -- `defer f.Close()` is registered here
        match delimiterComma delimiter with
        | none =>
          -- `delimiter[0]` is out of range: only the deferred `f.Close()` runs
          { qd := qd, world := w.emit (.close f),
            exit := .panicked "index out of range [0] with length 0" }
        | some comma =>
          -- `defer w.Flush()` is registered here
          let r := ExecuteQuery.loop f comma env.last env.rows 0 qd w
          -- the deferred calls run last in, first out
          { qd := r.1, world := (r.2.emit (.flush f)).emit (.close f), exit := .returned () }

/-! ## `ExecuteDryRun` (lines 236-260) -/

/-- The method `(qd *QueryDetails) ExecuteDryRun(...)`. -/
def ExecuteDryRun (qd : QueryDetails) (project dataset location : String)
    (disableQueryCache : Bool) (env : DryRunEnv) (w : World) : RunResult :=
  let q : QueryConfig :=
    { Q := qd.SQL, DefaultProjectID := project, DefaultDatasetID := dataset,
      Location := location, DisableQueryCache := disableQueryCache, DryRun := true }
  let qd := { qd with QueryStartTime := w.now.1 }
  let w := w.now.2.emit (.run q)
  match env.run with
  | some err => { qd := { qd with Error := some err }, world := w, exit := .returned () }
  | none =>
    match env.status with
    | some err => { qd := { qd with Error := some err }, world := w, exit := .returned () }
    | none => { qd := { qd with QueryEndTime := w.now.1 }, world := w.now.2, exit := .returned () }

/-! ## `ExecuteQueries` (lines 125-164) -/

/-- The batch and the world when `ExecuteQueries` ends, and how it ends; a
returned value is the `error`. -/
structure BatchResult where
  queries : Queries
  world : World
  exit : Exit (Option String)
deriving DecidableEq, Repr

/-- The loop of lines 141-156.  The state is the batch, the position in
`ExecutionOrder` (which selects what the run meets outside), `errorCount` and
the world; a returned value is the final `errorCount`. -/
def ExecuteQueries.loop (project dataset location : String) (disableQueryCache dryRun : Bool)
    (delimiter : List UInt8) (oracle : Nat → RunEnv) :
    List Int → Nat → Queries → Int → World → Queries × World × Exit Int
  | [], _, queries, errorCount, w => (queries, w, .returned errorCount)
  | index :: rest, k, queries, errorCount, w =>
    if index < 0 then (queries, w, .panicked "index out of range")
    else
      match queries.Query[index.toNat]? with
      | none => (queries, w, .panicked "index out of range")
      | some qd =>
        -- `qd := queries.Query[index]` is a copy of the record; the runner and
        -- the logging receive `&qd`
        let w := w.emit (.call dryRun index)
        let r :=
          if dryRun then ExecuteDryRun qd project dataset location disableQueryCache (oracle k).dry w
          else ExecuteQuery qd project dataset location disableQueryCache delimiter (oracle k).live w
        match r.exit with
        | .panicked msg => (queries, r.world, .panicked msg)
        | .returned _ =>
          let w :=
            if dryRun then r.world.emit (.logExecuteDryRun r.qd)
            else r.world.emit (.logExecuteQuery r.qd)
          -- Count the Errors
          let errorCount := if r.qd.Error.isSome then errorCount + 1 else errorCount
          ExecuteQueries.loop project dataset location disableQueryCache dryRun delimiter oracle
            rest (k + 1) queries errorCount w

/-- The method `(queries *Queries) ExecuteQueries(...) error`.  `newClient` is
the error of `bigquery.NewClient`, `oracle k` what the run at position `k` of
`ExecutionOrder` meets outside the program. -/
def ExecuteQueries (queries : Queries) (project dataset location : String)
    (disableQueryCache dryRun : Bool) (delimiter : List UInt8)
    (newClient : Option String) (oracle : Nat → RunEnv) (w : World) : BatchResult :=
  match newClient with
  | some err =>
    { queries := queries, world := w,
      exit := .returned (some ("Failed Establishing BigQuery Client Connection: " ++ err)) }
  | none =>
    let w := w.emit (.newClient project)
    -- `defer client.Close()` is registered here
    match ExecuteQueries.loop project dataset location disableQueryCache dryRun delimiter oracle
        queries.ExecutionOrder 0 queries 0 w with
    | (queries, w, .panicked msg) =>
      { queries := queries, world := w.emit .clientClose, exit := .panicked msg }
    | (queries, w, .returned errorCount) =>
      -- Raise an Error if one of the queries executed failed
      { queries := queries, world := w.emit .clientClose,
        exit := .returned (if errorCount > 0 then some "One or More Queries Failed" else none) }

/-! ## Notions used to state the properties -/

/-- The number a string of decimal digits denotes. -/
def decimalValue (digits : List Char) : Nat :=
  digits.foldl (fun acc c => acc * 10 + (c.toNat - 48)) 0

/-- The match is not a directory: `os.Stat` succeeds and `IsDir()` is false. -/
def LoadEnv.isFile (env : LoadEnv) (filename : String) : Bool :=
  match env.stat filename with
  | .ok false => true
  | _ => false

/-- Every match can be inspected, and every match that is not a directory can be
read. -/
def LoadEnv.Readable (env : LoadEnv) (matched : List String) : Prop :=
  ∀ filename ∈ matched,
    (∃ isDir, env.stat filename = .ok isDir) ∧
      (env.stat filename = .ok false → ∃ buf, env.readFile (env.abs filename) = .ok buf)

/-- The record `LoadQueries` builds at lines 88-93 for the file `filename` with
contents `buf` when `queryCount` is `number`. -/
def loadedRecord (env : LoadEnv) (runDir : String) (number : Int) (filename buf : String) :
    QueryDetails :=
  { SQL := buf, InputFile := env.abs filename,
    OutputFile := joinAbs runDir (outputFileName number), Number := number,
    Error := none, QueryStartTime := 0, QueryEndTime := 0, FirstRowReturnedTime := 0,
    AllRowsReturnedTime := 0, TotalRowsReturned := 0 }

/-- The run gets as far as opening the output file: the directory is there or is
created, the submission succeeds and `os.Create` succeeds. -/
def LiveEnv.opensFile (env : LiveEnv) : Bool :=
  !(env.pathMissing && env.mkdirAll.isSome) && env.read.isNone && env.create.isNone

/-- The rows written before the stream ends or a write fails. -/
def writtenRows (rows : List (Row × Option String)) : List Row :=
  (rows.takeWhile (fun r => r.2.isNone)).map (fun r => r.1)

/-- The stream of rows ends in a failure: a write fails, or the iterator ends with
an error other than `iterator.Done`. -/
def LiveEnv.streamFails (env : LiveEnv) : Bool :=
  env.rows.any (fun r => r.2.isSome) || env.last.isSome

/-- The live run meets a failure. -/
def LiveEnv.fails (env : LiveEnv) : Bool :=
  !env.opensFile || env.streamFails

/-- The dry run meets a failure. -/
def DryRunEnv.fails (env : DryRunEnv) : Bool :=
  env.run.isSome || env.status.isSome

/-- The run in the mode `dryRun` meets a failure. -/
def RunEnv.fails (env : RunEnv) (dryRun : Bool) : Bool :=
  if dryRun then env.dry.fails else env.live.fails

/-- The run in the mode `dryRun` does not come to the out-of-range `delimiter[0]`
of line 206: it is a dry run, or the delimiter is not empty, or the run ends
before the output file is opened. -/
def RunEnv.reachesNoPanic (env : RunEnv) (dryRun : Bool) (delimiter : List UInt8) : Bool :=
  dryRun || !delimiter.isEmpty || !env.live.opensFile

/-- Every entry of `ExecutionOrder` is an index of `Query`. -/
def Queries.InRange (queries : Queries) : Prop :=
  ∀ index ∈ queries.ExecutionOrder, 0 ≤ index ∧ index.toNat < queries.Query.length

/-- The number of failing runs among the `n` runs from position `k` on. -/
def failedRuns (oracle : Nat → RunEnv) (dryRun : Bool) (k n : Nat) : Nat :=
  (List.range n).countP (fun i => (oracle (k + i)).fails dryRun)

/-- The runner calls among the events: mode and index, in order. -/
def runnerCalls (events : List Event) : List (Bool × Int) :=
  events.filterMap fun e =>
    match e with
    | .call dryRun index => some (dryRun, index)
    | _ => none

/-- The records handed to `LogExecuteQuery` and `LogExecuteDryRun`, in order. -/
def loggedRecords (events : List Event) : List QueryDetails :=
  events.filterMap fun e =>
    match e with
    | .logExecuteQuery qd => some qd
    | .logExecuteDryRun qd => some qd
    | _ => none

/-- The bytes of the Go string that holds the text `s` in UTF-8. -/
def goBytes (s : String) : List UInt8 :=
  s.data.flatMap String.utf8EncodeChar

/-- The `bigquery.Query` that `ExecuteQuery` and `ExecuteDryRun` configure for the
record `qd`. -/
def queryOf (qd : QueryDetails) (project dataset location : String)
    (disableQueryCache dryRun : Bool) : QueryConfig :=
  { Q := qd.SQL, DefaultProjectID := project, DefaultDatasetID := dataset,
    Location := location, DisableQueryCache := disableQueryCache, DryRun := dryRun }

/-- The events of a live run up to the creation of the output file: the directory
if it was missing, the submission, the file. -/
def openingEvents (qd : QueryDetails) (project dataset location : String)
    (disableQueryCache : Bool) (env : LiveEnv) : List Event :=
  (if env.pathMissing then [Event.mkdirAll qd.OutputFile] else []) ++
    [Event.read (queryOf qd project dataset location disableQueryCache false),
      Event.create qd.OutputFile]

/-- The runner of the selected mode: `ExecuteDryRun` when `dryRun` is set,
`ExecuteQuery` otherwise. -/
def runOne (qd : QueryDetails) (project dataset location : String)
    (disableQueryCache dryRun : Bool) (delimiter : List UInt8) (env : RunEnv) (w : World) :
    RunResult :=
  if dryRun then ExecuteDryRun qd project dataset location disableQueryCache env.dry w
  else ExecuteQuery qd project dataset location disableQueryCache delimiter env.live w

/-- The world after the logging of a run: `LogExecuteDryRun` or `LogExecuteQuery`
on the record the run left. -/
def logOne (dryRun : Bool) (r : RunResult) : World :=
  if dryRun then r.world.emit (.logExecuteDryRun r.qd)
  else r.world.emit (.logExecuteQuery r.qd)

/-- The batch execution as the spec words it (4.4, "iterates `executionOrder`; for
each index, invokes QueryRunner in the selected mode on the corresponding record,
then invokes ResultReporter for that record"): the runs one after the other, the
run at position `k` being the runner on the record at entry `k` of the order in
the world the logging of the run before it left, and the world after the last
logging.  It is what the loop of `ExecuteQueries` is compared with. -/
def sequentialRuns (queries : Queries) (project dataset location : String)
    (disableQueryCache dryRun : Bool) (delimiter : List UInt8) (oracle : Nat → RunEnv) :
    List Int → Nat → World → List RunResult × World
  | [], _, w => ([], w)
  | index :: rest, k, w =>
    match queries.Query[index.toNat]? with
    | none => ([], w)
    | some qd =>
      let r := runOne qd project dataset location disableQueryCache dryRun delimiter (oracle k)
        (w.emit (.call dryRun index))
      let t := sequentialRuns queries project dataset location disableQueryCache dryRun
        delimiter oracle rest (k + 1) (logOne dryRun r)
      (r :: t.1, t.2)

/-! ## Sample inputs -/

/-- A directory listing with the three query files `a.sql`, `b.sql`, `c.sql`, all
readable, and the run directory `/out/2022-10-01.120000`. -/
def threeFiles : LoadEnv :=
  { absOutputPath := fun _ => .ok "/out/2022-10-01.120000"
    glob := fun _ => .ok ["a.sql", "b.sql", "c.sql"]
    stat := fun _ => .ok false
    abs := fun filename => "/queries/" ++ filename
    readFile := fun _ => .ok "SELECT 1" }

/-- A pattern that matches nothing. -/
def noFiles : LoadEnv :=
  { threeFiles with glob := fun _ => .ok [] }

/-- A listing in which the second of three matches, `sub`, is a directory. -/
def withDirectory : LoadEnv :=
  { threeFiles with
    glob := fun _ => .ok ["a.sql", "sub", "c.sql"]
    stat := fun filename => .ok (filename == "sub") }

/-- A record as `LoadQueries` leaves it. -/
def sampleRecord : QueryDetails :=
  loadedRecord threeFiles "/out/2022-10-01.120000" 1 "a.sql" "SELECT 1"

/-- The world before anything has happened. -/
def World.start : World := { clock := 0, events := [] }

/-- A live run whose cursor is exhausted at the first call of `it.Next`. -/
def zeroRows : LiveEnv :=
  { pathMissing := true, mkdirAll := none, read := none, create := none, rows := [],
    last := none }

/-- A live run that writes two rows and then meets a fetch error. -/
def brokenStream : LiveEnv :=
  { zeroRows with
    rows := [(["1", "a"], none), (["2", "b"], none)]
    last := some "connection reset" }

/-- A live run whose submission fails. -/
def submissionFails : LiveEnv :=
  { zeroRows with read := some "connection refused" }

/-- The delimiter `,`. -/
def commaDelimiter : List UInt8 := [44]

/-- A dry run that succeeds. -/
def dryRunSucceeds : DryRunEnv := { run := none, status := none }

/-- A dry run whose job reports an error status. -/
def dryRunRejected : DryRunEnv := { run := none, status := some "invalid query" }

/-- A batch of two records, to be run in the order second, first. -/
def twoQueries : Queries :=
  { Query := [sampleRecord,
      loadedRecord threeFiles "/out/2022-10-01.120000" 2 "b.sql" "SELECT 2"],
    ExecutionOrder := [1, 0] }

/-- Every run succeeds and returns no row, except the run at position 1 of the
order, whose submission fails (live) or whose job is rejected (dry run). -/
def secondRunFails : Nat → RunEnv := fun k =>
  if k = 1 then { live := submissionFails, dry := dryRunRejected }
  else { live := zeroRows, dry := dryRunSucceeds }

/-- The run at position 0 of the order fails at submission (live) or is rejected
(dry run); every later run succeeds and returns no row. -/
def firstRunFails : Nat → RunEnv := fun k =>
  if k = 0 then { live := submissionFails, dry := dryRunRejected }
  else { live := zeroRows, dry := dryRunSucceeds }

/-- Every run succeeds and returns no row. -/
def everyRunSucceeds : Nat → RunEnv := fun _ =>
  { live := zeroRows, dry := dryRunSucceeds }

/-- A batch whose order names a record that is not there. -/
def outOfRange : Queries :=
  { Query := [sampleRecord], ExecutionOrder := [0, 1] }

/-- A pattern that names a directory: the only match is the directory itself. -/
def directoryOnly : LoadEnv :=
  { threeFiles with
    glob := fun _ => .ok ["queries"]
    stat := fun _ => .ok true }

/-! ## Loading and ordering: lemmas -/

/-- The loop of `LoadQueries` only appends: for some number `n` of new records,
`Query` grows by `n` and `ExecutionOrder` by `queryCount-1, ..., queryCount-1+n-1`. -/
theorem LoadQueries.loop_order (env : LoadEnv) (outputPath : String) (files : List String) :
    ∀ (queries : Queries) (queryCount : Int), ∃ n : Nat,
      (LoadQueries.loop env outputPath files queries queryCount).1.Query.length
        = queries.Query.length + n ∧
      (LoadQueries.loop env outputPath files queries queryCount).1.ExecutionOrder
        = queries.ExecutionOrder ++ (List.range n).map (fun k : Nat => queryCount - 1 + (k : Int)) := by
  induction files with
  | nil => intro queries queryCount; exact ⟨0, by simp [LoadQueries.loop]⟩
  | cons filename rest ih =>
    intro queries queryCount
    unfold LoadQueries.loop
    split
    · exact ⟨0, by simp⟩
    · exact ih queries queryCount
    · simp only []
      split
      · exact ⟨0, by simp⟩
      · rename_i buf _
        obtain ⟨n, hlen, hord⟩ := ih
          { Query := queries.Query ++ [
              { SQL := buf, InputFile := env.abs filename,
                OutputFile := joinAbs outputPath (outputFileName queryCount),
                Number := queryCount, Error := none, QueryStartTime := 0, QueryEndTime := 0,
                FirstRowReturnedTime := 0, AllRowsReturnedTime := 0, TotalRowsReturned := 0 }],
            ExecutionOrder := queries.ExecutionOrder ++ [queryCount - 1] }
          (queryCount + 1)
        refine ⟨n + 1, ?_, ?_⟩
        · rw [hlen]
          simp only [List.length_append, List.length_singleton]
          omega
        · rw [hord]
          simp only [List.append_assoc, List.singleton_append, List.range_succ_eq_map,
            List.map_cons, List.map_map]
          congr 2
          · simp
          · apply List.map_congr_left
            intro k _
            simp only [Function.comp_apply, Nat.cast_succ]
            ring

/-- After `LoadQueries` on the empty batch the order is `0, 1, ..., len(Query)-1`. -/
theorem LoadQueries.order_eq_range (env : LoadEnv) (inputPath outputPath : String) :
    (LoadQueries env Queries.empty inputPath outputPath).1.ExecutionOrder
      = (List.range (LoadQueries env Queries.empty inputPath outputPath).1.Query.length).map
          (fun k : Nat => (k : Int)) := by
  unfold LoadQueries
  cases env.absOutputPath outputPath with
  | error err => simp [Queries.empty]
  | ok runDir =>
    cases env.glob inputPath with
    | error err => simp [Queries.empty]
    | ok matched =>
      obtain ⟨n, hlen, hord⟩ := LoadQueries.loop_order env runDir matched Queries.empty 1
      show (LoadQueries.loop env runDir matched Queries.empty 1).1.ExecutionOrder
        = (List.range (LoadQueries.loop env runDir matched Queries.empty 1).1.Query.length).map
            (fun k : Nat => (k : Int))
      rw [hlen, hord]
      simp only [Queries.empty, List.length_nil, Nat.zero_add, List.nil_append]
      apply List.map_congr_left
      intro k _
      simp

/-- The swap of line 115 rearranges the order. -/
theorem swapOrder_perm (order : List Int) (i j : Nat) : (swapOrder order i j).Perm order := by
  unfold swapOrder
  cases hi : order[i]? with
  | none => exact List.Perm.refl _
  | some a =>
    cases hj : order[j]? with
    | none => exact List.Perm.refl _
    | some b =>
      obtain ⟨hil, hia⟩ := List.getElem?_eq_some.mp hi
      obtain ⟨hjl, hjb⟩ := List.getElem?_eq_some.mp hj
      have hjl2 : j < (order.set i b).length := by simpa using hjl
      rw [List.perm_iff_count]
      intro x
      rw [List.count_set _ _ _ _ hjl2, List.count_set _ _ _ _ hil, List.getElem_set]
      have hcb : (if (order[j] == x) = true then 1 else 0) ≤ order.count x := by
        split
        · rename_i h
          have hx : order[j] = x := by simpa using h
          exact List.count_pos_iff.mpr (hx ▸ List.getElem_mem hjl)
        · exact Nat.zero_le _
      have hca : (if (order[i] == x) = true then 1 else 0) ≤ order.count x := by
        split
        · rename_i h
          have hx : order[i] = x := by simpa using h
          exact List.count_pos_iff.mpr (hx ▸ List.getElem_mem hil)
        · exact Nat.zero_le _
      subst hia hjb
      by_cases hij : i = j
      · subst hij
        simp only [if_true]
        by_cases hx : order[i] = x
        · have h1 : (order[i] == x) = true := by simpa using hx
          simp only [h1, if_true, if_false, Bool.false_eq_true] at hca ⊢
          omega
        · have h1 : ¬ ((order[i] == x) = true) := by simpa using hx
          simp only [h1, if_true, if_false, Bool.false_eq_true]
          omega
      · simp only [hij, if_false]
        by_cases hx : order[i] = x <;> by_cases hy : order[j] = x
        · have h1 : (order[i] == x) = true := by simpa using hx
          have h2 : (order[j] == x) = true := by simpa using hy
          simp only [h1, h2, if_true, if_false, Bool.false_eq_true] at hca ⊢
          omega
        · have h1 : (order[i] == x) = true := by simpa using hx
          have h2 : ¬ ((order[j] == x) = true) := by simpa using hy
          simp only [h1, h2, if_true, if_false, Bool.false_eq_true] at hca ⊢
          omega
        · have h1 : ¬ ((order[i] == x) = true) := by simpa using hx
          have h2 : (order[j] == x) = true := by simpa using hy
          simp only [h1, h2, if_true, if_false, Bool.false_eq_true] at hcb ⊢
          omega
        · have h1 : ¬ ((order[i] == x) = true) := by simpa using hx
          have h2 : ¬ ((order[j] == x) = true) := by simpa using hy
          simp only [h1, h2, if_true, if_false, Bool.false_eq_true]
          omega

/-- The loop of `rand.Shuffle` rearranges the order. -/
theorem randShuffle.loop_perm (rnd : Nat → Nat) :
    ∀ (i : Nat) (order : List Int), (randShuffle.loop rnd i order).Perm order := by
  intro i
  induction i with
  | zero => intro order; exact List.Perm.refl _
  | succ i ih =>
    intro order
    exact (ih _).trans (swapOrder_perm order (i + 1) (rnd (i + 1) % (i + 2)))

/-- The method `ShuffleExecutionOrder` keeps the records and rearranges the order. -/
theorem ShuffleExecutionOrder.perm (rnd : Nat → Nat) (queries : Queries) (shuffle : Bool) :
    (ShuffleExecutionOrder rnd queries shuffle).Query = queries.Query ∧
      (ShuffleExecutionOrder rnd queries shuffle).ExecutionOrder.Perm queries.ExecutionOrder := by
  unfold ShuffleExecutionOrder
  cases shuffle with
  | false => exact ⟨rfl, List.Perm.refl _⟩
  | true => exact ⟨rfl, randShuffle.loop_perm rnd _ _⟩

/-! ## Loading and ordering: the claims -/

/-- C4: after `LoadQueries` on an empty batch and `ShuffleExecutionOrder`, for either
value of `shuffle` and every random source, `ExecutionOrder` has the length of
`Query` and is a permutation of `0, ..., len(Query)-1`: every index occurs, and
none twice. -/
theorem C4_execution_order_is_permutation (env : LoadEnv) (inputPath outputPath : String)
    (rnd : Nat → Nat) (shuffle : Bool) :
    (ShuffleExecutionOrder rnd (LoadQueries env Queries.empty inputPath outputPath).1
        shuffle).ExecutionOrder.length
      = (ShuffleExecutionOrder rnd (LoadQueries env Queries.empty inputPath outputPath).1
          shuffle).Query.length ∧
    (ShuffleExecutionOrder rnd (LoadQueries env Queries.empty inputPath outputPath).1
        shuffle).ExecutionOrder.Perm
      ((List.range (ShuffleExecutionOrder rnd
          (LoadQueries env Queries.empty inputPath outputPath).1 shuffle).Query.length).map
        (fun k : Nat => (k : Int))) ∧
    (ShuffleExecutionOrder rnd (LoadQueries env Queries.empty inputPath outputPath).1
        shuffle).ExecutionOrder.Nodup ∧
    ∀ k : Nat, k < (ShuffleExecutionOrder rnd
          (LoadQueries env Queries.empty inputPath outputPath).1 shuffle).Query.length →
      (k : Int) ∈ (ShuffleExecutionOrder rnd
          (LoadQueries env Queries.empty inputPath outputPath).1 shuffle).ExecutionOrder := by
  obtain ⟨hq, hp⟩ := ShuffleExecutionOrder.perm rnd
    (LoadQueries env Queries.empty inputPath outputPath).1 shuffle
  have hr := LoadQueries.order_eq_range env inputPath outputPath
  rw [hq]
  rw [hr] at hp
  refine ⟨?_, hp, ?_, ?_⟩
  · rw [hp.length_eq]; simp
  · refine hp.nodup_iff.mpr ?_
    exact (List.nodup_range _).map (fun a b h => by exact_mod_cast h)
  · intro k hk
    refine hp.mem_iff.mpr ?_
    exact List.mem_map.mpr ⟨k, List.mem_range.mpr hk, rfl⟩

/-- C4, on three loaded files shuffled by a source that always draws 0: the index
1 is still in the order. -/
theorem C4_execution_order_is_permutation_witness :
    (1 : Nat) < (ShuffleExecutionOrder (fun _ => 0)
        (LoadQueries threeFiles Queries.empty "*.sql" "out").1 true).Query.length ∧
    ((1 : Nat) : Int) ∈ (ShuffleExecutionOrder (fun _ => 0)
        (LoadQueries threeFiles Queries.empty "*.sql" "out").1 true).ExecutionOrder :=
  ⟨by decide,
    (C4_execution_order_is_permutation threeFiles "*.sql" "out" (fun _ => 0) true).2.2.2 1
      (by decide)⟩

/-- C5: with `shuffle` false the order is the identity order: after `LoadQueries` on
an empty batch and `ShuffleExecutionOrder(false)`, `ExecutionOrder` is
`[0, 1, ..., n-1]` for `n = len(Query)`, so it is empty when no record was loaded;
`ShuffleExecutionOrder(false)` returns the batch it was given; and for three
loaded files the order is `[0, 1, 2]`. -/
theorem C5_identity_order_without_shuffle (env : LoadEnv) (inputPath outputPath : String)
    (rnd : Nat → Nat) (queries : Queries) :
    (ShuffleExecutionOrder rnd (LoadQueries env Queries.empty inputPath outputPath).1
        false).ExecutionOrder
      = (List.range (LoadQueries env Queries.empty inputPath outputPath).1.Query.length).map
          (fun k : Nat => (k : Int)) ∧
    ((LoadQueries env Queries.empty inputPath outputPath).1.Query = [] →
      (ShuffleExecutionOrder rnd (LoadQueries env Queries.empty inputPath outputPath).1
        false).ExecutionOrder = []) ∧
    ShuffleExecutionOrder rnd queries false = queries ∧
    LoadQueries noFiles Queries.empty inputPath outputPath = (Queries.empty, none) ∧
    (LoadQueries threeFiles Queries.empty inputPath outputPath).2 = none ∧
    (LoadQueries threeFiles Queries.empty inputPath outputPath).1.Query.length = 3 ∧
    (ShuffleExecutionOrder rnd (LoadQueries threeFiles Queries.empty inputPath outputPath).1
        false).ExecutionOrder = [0, 1, 2] := by
  have hid : ∀ q : Queries, ShuffleExecutionOrder rnd q false = q := fun q => rfl
  refine ⟨?_, ?_, hid queries, rfl, rfl, rfl, ?_⟩
  · rw [hid]; exact LoadQueries.order_eq_range env inputPath outputPath
  · intro h
    rw [hid, LoadQueries.order_eq_range, h]
    rfl
  · rw [hid]; rfl

/-- C5, at a pattern that matches nothing: the load yields no record and the
order without shuffle is empty. -/
theorem C5_identity_order_without_shuffle_witness :
    (LoadQueries noFiles Queries.empty "*.sql" "out").1.Query = [] ∧
    (ShuffleExecutionOrder (fun _ => 0) (LoadQueries noFiles Queries.empty "*.sql" "out").1
        false).ExecutionOrder = [] :=
  ⟨rfl, (C5_identity_order_without_shuffle noFiles "*.sql" "out" (fun _ => 0)
    Queries.empty).2.1 rfl⟩

/-! ## Output paths: lemmas -/

/-- The character of a decimal digit denotes that digit. -/
theorem digitChar_value (d : Nat) (h : d < 10) : (Nat.digitChar d).toNat - 48 = d := by
  interval_cases d <;> rfl

/-- Reading back the digits produced with enough fuel gives the number. -/
theorem toDigitsCore_value (fuel : Nat) :
    ∀ (n : Nat) (ds : List Char), n < fuel →
      (Nat.toDigitsCore 10 fuel n ds).foldl (fun acc c => acc * 10 + (c.toNat - 48)) 0
        = ds.foldl (fun acc c => acc * 10 + (c.toNat - 48)) n := by
  induction fuel with
  | zero => intro n ds h; omega
  | succ fuel ih =>
    intro n ds h
    unfold Nat.toDigitsCore
    simp only []
    split
    · rename_i h0
      have hn : n < 10 := by omega
      simp only [List.foldl_cons, Nat.zero_mul, Nat.zero_add]
      rw [digitChar_value _ (Nat.mod_lt _ (by decide)), Nat.mod_eq_of_lt hn]
    · rename_i h0
      rw [ih (n / 10) _ (by omega)]
      simp only [List.foldl_cons]
      rw [digitChar_value _ (Nat.mod_lt _ (by decide)), Nat.div_add_mod']

/-- The decimal digits of `n` denote `n`. -/
theorem decimalValue_toDigits (n : Nat) : decimalValue (Nat.toDigits 10 n) = n := by
  unfold decimalValue Nat.toDigits
  rw [toDigitsCore_value (n + 1) n [] (by omega)]
  rfl

/-- Zeros in front do not change the number denoted. -/
theorem decimalValue_zeroPad (width : Nat) (digits : List Char) :
    decimalValue (zeroPad width digits) = decimalValue digits := by
  unfold decimalValue zeroPad
  rw [List.foldl_append]
  congr 1
  induction width - digits.length with
  | zero => rfl
  | succ k ih => rw [List.replicate_succ, List.foldl_cons]; exact ih

/-- The text `%06d` produces for a number that is not negative denotes it. -/
theorem decimalValue_sprintf06d (n : Int) (h : 0 ≤ n) :
    decimalValue (sprintf06d n).data = n.toNat := by
  unfold sprintf06d
  rw [if_neg (by omega)]
  show decimalValue (zeroPad 6 (Nat.toDigits 10 n.toNat)) = n.toNat
  rw [decimalValue_zeroPad, decimalValue_toDigits]

/-- The file name determines the sequence number, for numbers that are not negative. -/
theorem outputFileName_injective (m n : Int) (hm : 0 ≤ m) (hn : 0 ≤ n)
    (h : outputFileName m = outputFileName n) : m = n := by
  unfold outputFileName at h
  have hd := congrArg String.data h
  simp only [String.data_append] at hd
  have h1 := List.append_cancel_right hd
  have h2 := List.append_cancel_left h1
  have h3 := decimalValue_sprintf06d m hm
  rw [h2, decimalValue_sprintf06d n hn] at h3
  omega

/-- Under one run directory the path determines the file name. -/
theorem joinAbs_injective (runDir a b : String) (h : joinAbs runDir a = joinAbs runDir b) :
    a = b := by
  unfold joinAbs at h
  have hd := congrArg String.data h
  simp only [String.data_append] at hd
  exact String.ext (List.append_cancel_left hd)

/-- The records the loop of `LoadQueries` appends carry consecutive numbers from
`queryCount` on, and the output path of their number, on every path through the
loop. -/
theorem LoadQueries.loop_records (env : LoadEnv) (outputPath : String) (files : List String) :
    ∀ (queries : Queries) (queryCount : Int), ∃ recs : List QueryDetails,
      (LoadQueries.loop env outputPath files queries queryCount).1.Query = queries.Query ++ recs ∧
      ∀ (k : Nat) (qd : QueryDetails), recs[k]? = some qd →
        qd.Number = queryCount + k ∧
          qd.OutputFile = joinAbs outputPath (outputFileName (queryCount + k)) := by
  induction files with
  | nil => intro queries queryCount; exact ⟨[], by simp [LoadQueries.loop]⟩
  | cons filename rest ih =>
    intro queries queryCount
    unfold LoadQueries.loop
    split
    · exact ⟨[], by simp⟩
    · exact ih queries queryCount
    · simp only []
      split
      · exact ⟨[], by simp⟩
      · rename_i buf _
        obtain ⟨recs, hq, hrec⟩ := ih
          { Query := queries.Query ++ [loadedRecord env outputPath queryCount filename buf],
            ExecutionOrder := queries.ExecutionOrder ++ [queryCount - 1] }
          (queryCount + 1)
        refine ⟨loadedRecord env outputPath queryCount filename buf :: recs, ?_, ?_⟩
        · show (LoadQueries.loop env outputPath rest
              { Query := queries.Query ++ [loadedRecord env outputPath queryCount filename buf],
                ExecutionOrder := queries.ExecutionOrder ++ [queryCount - 1] }
              (queryCount + 1)).1.Query = _
          rw [hq]
          simp
        · intro k qd hk
          cases k with
          | zero =>
            simp only [List.getElem?_cons_zero, Option.some.injEq] at hk
            subst hk
            simp [loadedRecord]
          | succ k =>
            simp only [List.getElem?_cons_succ] at hk
            obtain ⟨h1, h2⟩ := hrec k qd hk
            have e : queryCount + 1 + (k : Int) = queryCount + ((k + 1 : Nat) : Int) := by
              push_cast; ring
            rw [e] at h1 h2
            exact ⟨h1, h2⟩

/-- When every match is readable the loop of `LoadQueries` ends without error and
appends one record per match that is not a directory, in the order of the matches. -/
theorem LoadQueries.loop_readable (env : LoadEnv) (outputPath : String) (files : List String) :
    env.Readable files → ∀ (queries : Queries) (queryCount : Int), ∃ recs : List QueryDetails,
      (LoadQueries.loop env outputPath files queries queryCount).2 = none ∧
      (LoadQueries.loop env outputPath files queries queryCount).1.Query = queries.Query ++ recs ∧
      recs.length = (files.filter env.isFile).length ∧
      ∀ (k : Nat) (filename : String), (files.filter env.isFile)[k]? = some filename →
        ∃ buf, env.readFile (env.abs filename) = .ok buf ∧
          recs[k]? = some (loadedRecord env outputPath (queryCount + k) filename buf) := by
  induction files with
  | nil =>
    intro _ queries queryCount
    exact ⟨[], by simp [LoadQueries.loop]⟩
  | cons filename rest ih =>
    intro hread queries queryCount
    have hrest : env.Readable rest := fun f hf => hread f (List.mem_cons_of_mem _ hf)
    obtain ⟨⟨isDir, hstat⟩, hbuf⟩ := hread filename (List.mem_cons_self _ _)
    cases isDir with
    | true =>
      have hfile : env.isFile filename = false := by simp [LoadEnv.isFile, hstat]
      obtain ⟨recs, h1, h2, h3, h4⟩ := ih hrest queries queryCount
      refine ⟨recs, ?_, ?_, ?_, ?_⟩
      · simpa only [LoadQueries.loop, hstat] using h1
      · simpa only [LoadQueries.loop, hstat] using h2
      · simpa [List.filter_cons, hfile] using h3
      · intro k f hk
        rw [List.filter_cons, hfile] at hk
        exact h4 k f hk
    | false =>
      have hfile : env.isFile filename = true := by simp [LoadEnv.isFile, hstat]
      obtain ⟨buf, hbuf⟩ := hbuf hstat
      obtain ⟨recs, h1, h2, h3, h4⟩ := ih hrest
        { Query := queries.Query ++ [loadedRecord env outputPath queryCount filename buf],
          ExecutionOrder := queries.ExecutionOrder ++ [queryCount - 1] }
        (queryCount + 1)
      refine ⟨loadedRecord env outputPath queryCount filename buf :: recs, ?_, ?_, ?_, ?_⟩
      · simpa only [LoadQueries.loop, hstat, hbuf, loadedRecord] using h1
      · simp only [LoadQueries.loop, hstat, hbuf]
        simp only [loadedRecord] at h2
        rw [h2]
        simp [loadedRecord]
      · simp [List.filter_cons, hfile, h3]
      · intro k f hk
        rw [List.filter_cons, hfile] at hk
        cases k with
        | zero =>
          simp only [if_true, List.getElem?_cons_zero, Option.some.injEq] at hk
          subst hk
          exact ⟨buf, hbuf, by simp⟩
        | succ k =>
          simp only [if_true, List.getElem?_cons_succ] at hk
          obtain ⟨b, hb, hr⟩ := h4 k f hk
          refine ⟨b, hb, ?_⟩
          have e : queryCount + 1 + (k : Int) = queryCount + ((k + 1 : Nat) : Int) := by
            push_cast; ring
          rw [List.getElem?_cons_succ, hr, e]

/-! ## Output paths: the claims -/

/-- C6: when every match is readable, `LoadQueries` on an empty batch returns no
error and holds exactly one record per match that is not a directory, in match
order; the `k`-th of them (from 1) has `Number == k`, the contents of its file as
`SQL`, and `OutputFile` equal to the run directory, a separator, and
`results-query-` followed by the decimal digits of `k` padded with zeros to six
characters and `.output`.  Directories among the matches add no record and use no
number. -/
theorem C6_one_record_per_file (env : LoadEnv) (inputPath outputPath runDir : String)
    (matched : List String)
    (hdir : env.absOutputPath outputPath = .ok runDir)
    (hglob : env.glob inputPath = .ok matched)
    (hread : env.Readable matched) :
    (LoadQueries env Queries.empty inputPath outputPath).2 = none ∧
    (LoadQueries env Queries.empty inputPath outputPath).1.Query.length
      = (matched.filter env.isFile).length ∧
    ∀ (k : Nat) (filename : String), (matched.filter env.isFile)[k]? = some filename →
      ∃ buf, env.readFile (env.abs filename) = .ok buf ∧
        (LoadQueries env Queries.empty inputPath outputPath).1.Query[k]? = some
          { SQL := buf, InputFile := env.abs filename,
            OutputFile := runDir ++ "/" ++ ("results-query-" ++
              String.mk (List.replicate (6 - (Nat.toDigits 10 (k + 1)).length) '0'
                ++ Nat.toDigits 10 (k + 1)) ++ ".output"),
            Number := (k : Int) + 1,
            Error := none, QueryStartTime := 0, QueryEndTime := 0, FirstRowReturnedTime := 0,
            AllRowsReturnedTime := 0, TotalRowsReturned := 0 } := by
  obtain ⟨recs, h1, h2, h3, h4⟩ := LoadQueries.loop_readable env runDir matched hread
    Queries.empty 1
  have hL : LoadQueries env Queries.empty inputPath outputPath
      = LoadQueries.loop env runDir matched Queries.empty 1 := by
    simp only [LoadQueries, hdir, hglob]
  rw [hL]
  have hq : (LoadQueries.loop env runDir matched Queries.empty 1).1.Query = recs := by
    rw [h2]; rfl
  refine ⟨h1, by rw [hq, h3], ?_⟩
  intro k filename hk
  obtain ⟨buf, hb, hr⟩ := h4 k filename hk
  refine ⟨buf, hb, ?_⟩
  rw [hq, hr]
  have hpos : ¬ ((k : Int) + 1 < 0) := by omega
  have hnat : ((k : Int) + 1).toNat = k + 1 := by omega
  simp only [loadedRecord, joinAbs, outputFileName, sprintf06d, zeroPad,
    add_comm (1 : Int) (k : Int), if_neg hpos, hnat]

/-- C6, on a listing whose second match is a directory: two records are loaded and
the second one is the file `c.sql` with number 2. -/
theorem C6_one_record_per_file_witness :
    (LoadQueries withDirectory Queries.empty "*" "out").2 = none ∧
    (LoadQueries withDirectory Queries.empty "*" "out").1.Query.length = 2 ∧
    ∃ buf, withDirectory.readFile (withDirectory.abs "c.sql") = .ok buf ∧
      (LoadQueries withDirectory Queries.empty "*" "out").1.Query[1]? = some
        { SQL := buf, InputFile := "/queries/c.sql",
          OutputFile := "/out/2022-10-01.120000/results-query-000002.output",
          Number := 2,
          Error := none, QueryStartTime := 0, QueryEndTime := 0, FirstRowReturnedTime := 0,
          AllRowsReturnedTime := 0, TotalRowsReturned := 0 } :=
  have hread : withDirectory.Readable ["a.sql", "sub", "c.sql"] := fun filename _ =>
    ⟨⟨filename == "sub", rfl⟩, fun _ => ⟨"SELECT 1", rfl⟩⟩
  have h := C6_one_record_per_file withDirectory "*" "out" "/out/2022-10-01.120000"
    ["a.sql", "sub", "c.sql"] rfl rfl hread
  ⟨h.1, h.2.1, h.2.2 1 "c.sql" rfl⟩

/-- A pattern that names a directory is matched by the directory alone, which is
skipped: `LoadQueries` globs the pattern and does not walk into the directory, so
it loads no record and returns no error. -/
theorem LoadQueries.directory_pattern_loads_nothing :
    LoadQueries directoryOnly Queries.empty "queries" "out" = (Queries.empty, none) := by
  rfl

/-- C7: in the batch one `LoadQueries` call builds from an empty batch, two
records at different positions have different `OutputFile` paths, and different
positive sequence numbers give different file names
`results-query-{sequence:06d}.output`, whatever their number of digits. -/
theorem C7_output_files_distinct (env : LoadEnv) (inputPath outputPath : String) :
    (∀ (i j : Nat) (qi qj : QueryDetails),
      (LoadQueries env Queries.empty inputPath outputPath).1.Query[i]? = some qi →
      (LoadQueries env Queries.empty inputPath outputPath).1.Query[j]? = some qj →
      i ≠ j → qi.OutputFile ≠ qj.OutputFile) ∧
    (∀ m n : Int, 0 < m → 0 < n → m ≠ n → outputFileName m ≠ outputFileName n) := by
  refine ⟨?_, fun m n hm hn hne h => hne (outputFileName_injective m n hm.le hn.le h)⟩
  intro i j qi qj hi hj hij hout
  unfold LoadQueries at hi hj
  cases hdir : env.absOutputPath outputPath with
  | error err => simp [hdir, Queries.empty] at hi
  | ok runDir =>
    cases hglob : env.glob inputPath with
    | error err => simp [hdir, hglob, Queries.empty] at hi
    | ok matched =>
      obtain ⟨recs, hq, hrec⟩ := LoadQueries.loop_records env runDir matched Queries.empty 1
      have hq2 : (LoadQueries.loop env runDir matched Queries.empty 1).1.Query = recs := by
        rw [hq]; rfl
      simp only [hdir, hglob] at hi hj
      rw [hq2] at hi hj
      obtain ⟨_, hoi⟩ := hrec i qi hi
      obtain ⟨_, hoj⟩ := hrec j qj hj
      rw [hoi, hoj] at hout
      have := outputFileName_injective _ _ (by omega) (by omega) (joinAbs_injective _ _ _ hout)
      omega

/-- C7, on three loaded files and on the numbers 999999 and 1000000. -/
theorem C7_output_files_distinct_witness :
    (∀ qi qj : QueryDetails,
      (LoadQueries threeFiles Queries.empty "*.sql" "out").1.Query[0]? = some qi →
      (LoadQueries threeFiles Queries.empty "*.sql" "out").1.Query[2]? = some qj →
      qi.OutputFile ≠ qj.OutputFile) ∧
    outputFileName 999999 ≠ outputFileName 1000000 :=
  have h := C7_output_files_distinct threeFiles "*.sql" "out"
  ⟨fun qi qj hi hj => h.1 0 2 qi qj hi hj (by decide),
    h.2 999999 1000000 (by decide) (by decide) (by decide)⟩

/-! ## The runners: lemmas -/

theorem ExecuteQuery.stamp_events (rowCount : Int) (qd : QueryDetails) (w : World) :
    (ExecuteQuery.stamp rowCount qd w).2.events = w.events := by
  unfold ExecuteQuery.stamp; split <;> rfl

theorem ExecuteQuery.stamp_error (rowCount : Int) (qd : QueryDetails) (w : World) :
    (ExecuteQuery.stamp rowCount qd w).1.Error = qd.Error := by
  unfold ExecuteQuery.stamp; split <;> rfl

theorem ExecuteQuery.stamp_first (rowCount : Int) (qd : QueryDetails) (w : World)
    (h : 0 < rowCount) :
    (ExecuteQuery.stamp rowCount qd w).1.FirstRowReturnedTime = qd.FirstRowReturnedTime := by
  unfold ExecuteQuery.stamp; rw [if_neg (by omega)]

/-- The loop of `ExecuteQuery` adds one write event per row written, and nothing
else. -/
theorem ExecuteQuery.loop_events (f : String) (comma : Nat) (last : Option String) :
    ∀ (rows : List (Row × Option String)) (rowCount : Int) (qd : QueryDetails) (w : World),
      (ExecuteQuery.loop f comma last rows rowCount qd w).2.events
        = w.events ++ (writtenRows rows).map (Event.write f comma) := by
  intro rows
  induction rows with
  | nil =>
    intro rowCount qd w
    unfold ExecuteQuery.loop
    cases last <;> simp [writtenRows, ExecuteQuery.stamp_events, World.now]
  | cons r rest ih =>
    intro rowCount qd w
    obtain ⟨row, writeErr⟩ := r
    unfold ExecuteQuery.loop
    cases writeErr with
    | some e => simp [writtenRows, ExecuteQuery.stamp_events]
    | none =>
      simp only [ih, World.emit, ExecuteQuery.stamp_events]
      simp [writtenRows]

/-- The loop of `ExecuteQuery` sets `Error` exactly when the stream fails, and
never clears it. -/
theorem ExecuteQuery.loop_error (f : String) (comma : Nat) (last : Option String) :
    ∀ (rows : List (Row × Option String)) (rowCount : Int) (qd : QueryDetails) (w : World),
      (ExecuteQuery.loop f comma last rows rowCount qd w).1.Error.isSome
        = (qd.Error.isSome || (rows.any (fun r => r.2.isSome) || last.isSome)) := by
  intro rows
  induction rows with
  | nil =>
    intro rowCount qd w
    unfold ExecuteQuery.loop
    cases last <;> simp [ExecuteQuery.stamp_error]
  | cons r rest ih =>
    intro rowCount qd w
    obtain ⟨row, writeErr⟩ := r
    unfold ExecuteQuery.loop
    cases writeErr with
    | some e => simp
    | none => simp [ih, ExecuteQuery.stamp_error]

/-- Once a row has been counted the loop leaves `FirstRowReturnedTime` alone. -/
theorem ExecuteQuery.loop_first_of_pos (f : String) (comma : Nat) (last : Option String) :
    ∀ (rows : List (Row × Option String)) (rowCount : Int) (qd : QueryDetails) (w : World),
      0 < rowCount →
      (ExecuteQuery.loop f comma last rows rowCount qd w).1.FirstRowReturnedTime
        = qd.FirstRowReturnedTime := by
  intro rows
  induction rows with
  | nil =>
    intro rowCount qd w h
    unfold ExecuteQuery.loop
    cases last <;> simp [ExecuteQuery.stamp_first _ _ _ h]
  | cons r rest ih =>
    intro rowCount qd w h
    obtain ⟨row, writeErr⟩ := r
    unfold ExecuteQuery.loop
    cases writeErr with
    | some e => simp [ExecuteQuery.stamp_first _ _ _ h]
    | none => simp [ih _ _ _ (show 0 < rowCount + 1 by omega), ExecuteQuery.stamp_first _ _ _ h]

/-- Entered with `rowCount == 0`, the loop sets `FirstRowReturnedTime` to the
reading of the clock taken when the first `it.Next` returns, whatever it
returns. -/
theorem ExecuteQuery.loop_first_of_zero (f : String) (comma : Nat) (last : Option String)
    (rows : List (Row × Option String)) (qd : QueryDetails) (w : World) :
    (ExecuteQuery.loop f comma last rows 0 qd w).1.FirstRowReturnedTime = w.clock + 1 := by
  cases rows with
  | nil =>
    unfold ExecuteQuery.loop
    cases last <;> simp [ExecuteQuery.stamp, World.now]
  | cons r rest =>
    obtain ⟨row, writeErr⟩ := r
    unfold ExecuteQuery.loop
    cases writeErr with
    | some e => simp [ExecuteQuery.stamp, World.now]
    | none =>
      simp only []
      rw [ExecuteQuery.loop_first_of_pos _ _ _ _ _ _ _ (by omega)]
      simp [ExecuteQuery.stamp, World.now]

/-- The run of `ExecuteQuery` when the output file gets opened. -/
theorem ExecuteQuery.eq_of_opensFile (qd : QueryDetails) (project dataset location : String)
    (disableQueryCache : Bool) (delimiter : List UInt8) (env : LiveEnv) (w : World)
    (h : env.opensFile = true) :
    ExecuteQuery qd project dataset location disableQueryCache delimiter env w =
      match delimiterComma delimiter with
      | none =>
        { qd := { qd with QueryStartTime := w.clock + 1, QueryEndTime := w.clock + 2 },
          world :=
            { clock := w.clock + 2,
              events := w.events ++ openingEvents qd project dataset location disableQueryCache env
                ++ [Event.close qd.OutputFile] },
          exit := .panicked "index out of range [0] with length 0" }
      | some comma =>
        { qd := (ExecuteQuery.loop qd.OutputFile comma env.last env.rows 0
              { qd with QueryStartTime := w.clock + 1, QueryEndTime := w.clock + 2 }
              { clock := w.clock + 2,
                events := w.events
                  ++ openingEvents qd project dataset location disableQueryCache env }).1,
          world :=
            { clock := (ExecuteQuery.loop qd.OutputFile comma env.last env.rows 0
                { qd with QueryStartTime := w.clock + 1, QueryEndTime := w.clock + 2 }
                { clock := w.clock + 2,
                  events := w.events
                    ++ openingEvents qd project dataset location disableQueryCache env }).2.clock,
              events := (ExecuteQuery.loop qd.OutputFile comma env.last env.rows 0
                { qd with QueryStartTime := w.clock + 1, QueryEndTime := w.clock + 2 }
                { clock := w.clock + 2,
                  events := w.events
                    ++ openingEvents qd project dataset location disableQueryCache env }).2.events
                ++ [Event.flush qd.OutputFile, Event.close qd.OutputFile] },
          exit := .returned () } := by
  obtain ⟨pathMissing, mkdirAll, read, create, rows, last⟩ := env
  simp only [LiveEnv.opensFile, Bool.and_eq_true, Bool.not_eq_true', Option.isNone_iff_eq_none]
    at h
  obtain ⟨⟨h1, h2⟩, h3⟩ := h
  subst h2 h3
  unfold ExecuteQuery
  simp only [h1]
  cases pathMissing <;> cases delimiterComma delimiter <;>
    simp [World.emit, World.now, openingEvents, queryOf]

/-- The run of `ExecuteQuery` when the output file does not get opened: it returns
with `Error` set, having at most created the directory and submitted the query. -/
theorem ExecuteQuery.of_not_opensFile (qd : QueryDetails) (project dataset location : String)
    (disableQueryCache : Bool) (delimiter : List UInt8) (env : LiveEnv) (w : World)
    (h : env.opensFile = false) :
    (ExecuteQuery qd project dataset location disableQueryCache delimiter env w).exit
      = .returned () ∧
    (ExecuteQuery qd project dataset location disableQueryCache delimiter env w).qd.Error.isSome
      = true ∧
    (ExecuteQuery qd project dataset location disableQueryCache delimiter env w).world.events
      = w.events ++
        (if env.pathMissing && env.mkdirAll.isSome then []
         else (if env.pathMissing then [Event.mkdirAll qd.OutputFile] else []) ++
          [Event.read (queryOf qd project dataset location disableQueryCache false)]) := by
  obtain ⟨pathMissing, mkdirAll, read, create, rows, last⟩ := env
  unfold ExecuteQuery
  cases pathMissing <;> cases mkdirAll <;> cases read <;> cases create <;>
    simp [LiveEnv.opensFile] at h <;>
    simp [World.emit, World.now, queryOf]

theorem runnerCalls_append (es fs : List Event) :
    runnerCalls (es ++ fs) = runnerCalls es ++ runnerCalls fs := by
  simp [runnerCalls, List.filterMap_append]

theorem loggedRecords_append (es fs : List Event) :
    loggedRecords (es ++ fs) = loggedRecords es ++ loggedRecords fs := by
  simp [loggedRecords, List.filterMap_append]

theorem runnerCalls_writes (f : String) (comma : Nat) (rows : List Row) :
    runnerCalls (rows.map (Event.write f comma)) = [] := by
  induction rows with
  | nil => rfl
  | cons r rest ih => simp [runnerCalls]

theorem loggedRecords_writes (f : String) (comma : Nat) (rows : List Row) :
    loggedRecords (rows.map (Event.write f comma)) = [] := by
  induction rows with
  | nil => rfl
  | cons r rest ih => simp [loggedRecords]

/-- A run of `ExecuteQuery` adds no runner call and no log call to the events. -/
theorem ExecuteQuery.calls_logged (qd : QueryDetails) (project dataset location : String)
    (disableQueryCache : Bool) (delimiter : List UInt8) (env : LiveEnv) (w : World) :
    runnerCalls
        (ExecuteQuery qd project dataset location disableQueryCache delimiter env w).world.events
      = runnerCalls w.events ∧
    loggedRecords
        (ExecuteQuery qd project dataset location disableQueryCache delimiter env w).world.events
      = loggedRecords w.events := by
  cases h : env.opensFile with
  | false =>
    rw [(ExecuteQuery.of_not_opensFile qd project dataset location disableQueryCache delimiter
      env w h).2.2, runnerCalls_append, loggedRecords_append]
    cases env.pathMissing <;> cases env.mkdirAll <;> simp [runnerCalls, loggedRecords]
  | true =>
    rw [ExecuteQuery.eq_of_opensFile qd project dataset location disableQueryCache delimiter
      env w h]
    cases delimiterComma delimiter with
    | none =>
      simp only [runnerCalls_append, loggedRecords_append, openingEvents]
      cases env.pathMissing <;> simp [runnerCalls, loggedRecords]
    | some comma =>
      simp only [ExecuteQuery.loop_events, runnerCalls_append, loggedRecords_append,
        runnerCalls_writes, loggedRecords_writes, openingEvents]
      cases env.pathMissing <;> simp [runnerCalls, loggedRecords]

/-- A run of `ExecuteQuery` that does not reach an out-of-range `delimiter[0]`
returns, and its record has `Error` set exactly when it had one before or the run
met a failure. -/
theorem ExecuteQuery.returned_error (qd : QueryDetails) (project dataset location : String)
    (disableQueryCache : Bool) (delimiter : List UInt8) (env : LiveEnv) (w : World)
    (h : (!delimiter.isEmpty || !env.opensFile) = true) :
    (ExecuteQuery qd project dataset location disableQueryCache delimiter env w).exit
      = .returned () ∧
    (ExecuteQuery qd project dataset location disableQueryCache delimiter env w).qd.Error.isSome
      = (qd.Error.isSome || env.fails) := by
  cases ho : env.opensFile with
  | false =>
    obtain ⟨h1, h2, _⟩ := ExecuteQuery.of_not_opensFile qd project dataset location
      disableQueryCache delimiter env w ho
    exact ⟨h1, by simp [h2, LiveEnv.fails, ho]⟩
  | true =>
    rw [ExecuteQuery.eq_of_opensFile qd project dataset location disableQueryCache delimiter
      env w ho]
    cases delimiter with
    | nil => simp [ho] at h
    | cons b rest =>
      simp only [delimiterComma, ExecuteQuery.loop_error, LiveEnv.fails, ho,
        LiveEnv.streamFails]
      simp

/-- A run of `ExecuteDryRun` returns, submits the query once, and its record has
`Error` set exactly when it had one before or the run met a failure. -/
theorem ExecuteDryRun.dry_returned_error (qd : QueryDetails) (project dataset location : String)
    (disableQueryCache : Bool) (env : DryRunEnv) (w : World) :
    (ExecuteDryRun qd project dataset location disableQueryCache env w).exit = .returned () ∧
    (ExecuteDryRun qd project dataset location disableQueryCache env w).qd.Error.isSome
      = (qd.Error.isSome || env.fails) ∧
    (ExecuteDryRun qd project dataset location disableQueryCache env w).world.events
      = w.events ++ [Event.run (queryOf qd project dataset location disableQueryCache true)] := by
  obtain ⟨run, status⟩ := env
  unfold ExecuteDryRun
  cases run <;> cases status <;> simp [DryRunEnv.fails, World.emit, World.now, queryOf]

/-! ## `ExecuteQueries`: lemmas -/

/-- The runner in the selected mode, when it does not reach an out-of-range
`delimiter[0]`: it returns, `Error` is set exactly when it was set before or the
run met a failure, and the events gain no runner call and no log call. -/
theorem runner_spec (qd : QueryDetails) (project dataset location : String)
    (disableQueryCache dryRun : Bool) (delimiter : List UInt8) (env : RunEnv) (w : World)
    (h : env.reachesNoPanic dryRun delimiter = true) :
    (if dryRun then ExecuteDryRun qd project dataset location disableQueryCache env.dry w
      else ExecuteQuery qd project dataset location disableQueryCache delimiter env.live w).exit
      = .returned () ∧
    (if dryRun then ExecuteDryRun qd project dataset location disableQueryCache env.dry w
      else ExecuteQuery qd project dataset location disableQueryCache delimiter env.live
        w).qd.Error.isSome
      = (qd.Error.isSome || env.fails dryRun) ∧
    runnerCalls
      (if dryRun then ExecuteDryRun qd project dataset location disableQueryCache env.dry w
        else ExecuteQuery qd project dataset location disableQueryCache delimiter env.live
          w).world.events
      = runnerCalls w.events ∧
    loggedRecords
      (if dryRun then ExecuteDryRun qd project dataset location disableQueryCache env.dry w
        else ExecuteQuery qd project dataset location disableQueryCache delimiter env.live
          w).world.events
      = loggedRecords w.events := by
  cases dryRun with
  | true =>
    obtain ⟨h1, h2, h3⟩ := ExecuteDryRun.dry_returned_error qd project dataset location
      disableQueryCache env.dry w
    simp only [if_true]
    refine ⟨h1, by rw [h2]; rfl, ?_, ?_⟩
    · rw [h3, runnerCalls_append]; simp [runnerCalls]
    · rw [h3, loggedRecords_append]; simp [loggedRecords]
  | false =>
    have h0 : (!delimiter.isEmpty || !env.live.opensFile) = true := by
      simpa [RunEnv.reachesNoPanic] using h
    obtain ⟨h1, h2⟩ := ExecuteQuery.returned_error qd project dataset location
      disableQueryCache delimiter env.live w h0
    obtain ⟨h3, h4⟩ := ExecuteQuery.calls_logged qd project dataset location
      disableQueryCache delimiter env.live w
    simp only [Bool.false_eq_true, if_false]
    exact ⟨h1, by rw [h2]; rfl, h3, h4⟩

/-- One more run in front shifts the count of failing runs. -/
theorem failedRuns_succ (oracle : Nat → RunEnv) (dryRun : Bool) (k n : Nat) :
    failedRuns oracle dryRun k (n + 1)
      = (if (oracle k).fails dryRun then 1 else 0) + failedRuns oracle dryRun (k + 1) n := by
  unfold failedRuns
  rw [List.range_succ_eq_map, List.countP_cons, List.countP_map]
  have e : ((fun i => (oracle (k + i)).fails dryRun) ∘ Nat.succ)
      = fun i => (oracle (k + 1 + i)).fails dryRun := by
    funext i
    simp only [Function.comp_apply, Nat.succ_eq_add_one]
    congr 2
    omega
  rw [e]
  simp only [Nat.add_zero]
  omega

/-- The loop of `ExecuteQueries` never assigns to the batch. -/
theorem ExecuteQueries.loop_queries (queries : Queries) (project dataset location : String)
    (disableQueryCache dryRun : Bool) (delimiter : List UInt8) (oracle : Nat → RunEnv) :
    ∀ (order : List Int) (k : Nat) (errorCount : Int) (w : World),
      (ExecuteQueries.loop project dataset location disableQueryCache dryRun delimiter oracle
        order k queries errorCount w).1 = queries := by
  intro order
  induction order with
  | nil => intro k errorCount w; rfl
  | cons index rest ih =>
    intro k errorCount w
    rw [ExecuteQueries.loop]
    split
    · rfl
    · split
      · rfl
      · simp only []
        split
        · rfl
        · exact ih _ _ _

/-- The runner of the selected mode, when it does not reach an out-of-range
`delimiter[0]`: it returns, `Error` is set exactly when it was set before or the
run met a failure, and the events gain no runner call and no log call. -/
theorem runOne_spec (qd : QueryDetails) (project dataset location : String)
    (disableQueryCache dryRun : Bool) (delimiter : List UInt8) (env : RunEnv) (w : World)
    (h : env.reachesNoPanic dryRun delimiter = true) :
    (runOne qd project dataset location disableQueryCache dryRun delimiter env w).exit
      = .returned () ∧
    (runOne qd project dataset location disableQueryCache dryRun delimiter env w).qd.Error.isSome
      = (qd.Error.isSome || env.fails dryRun) ∧
    runnerCalls
        (runOne qd project dataset location disableQueryCache dryRun delimiter env w).world.events
      = runnerCalls w.events ∧
    loggedRecords
        (runOne qd project dataset location disableQueryCache dryRun delimiter env w).world.events
      = loggedRecords w.events :=
  runner_spec qd project dataset location disableQueryCache dryRun delimiter env w h

/-- The runner of the selected mode, when it reaches an out-of-range
`delimiter[0]`: it stops with a panic. -/
theorem runOne_panics (qd : QueryDetails) (project dataset location : String)
    (disableQueryCache dryRun : Bool) (delimiter : List UInt8) (env : RunEnv) (w : World)
    (h : env.reachesNoPanic dryRun delimiter = false) :
    (runOne qd project dataset location disableQueryCache dryRun delimiter env w).exit
      = .panicked "index out of range [0] with length 0" := by
  simp only [RunEnv.reachesNoPanic, Bool.or_eq_false_iff, Bool.not_eq_false'] at h
  obtain ⟨⟨hd, he⟩, ho⟩ := h
  subst hd
  cases delimiter with
  | cons b rest => simp at he
  | nil =>
    show (ExecuteQuery qd project dataset location disableQueryCache [] env.live w).exit = _
    rw [ExecuteQuery.eq_of_opensFile _ _ _ _ _ _ _ _ ho]
    rfl

/-- One pass through the body of the loop of `ExecuteQueries`, for an entry that
is in range. -/
theorem ExecuteQueries.loop_cons (queries : Queries) (project dataset location : String)
    (disableQueryCache dryRun : Bool) (delimiter : List UInt8) (oracle : Nat → RunEnv)
    (index : Int) (rest : List Int) (k : Nat) (errorCount : Int) (w : World)
    (qd : QueryDetails) (hidx : 0 ≤ index) (hq : queries.Query[index.toNat]? = some qd) :
    ExecuteQueries.loop project dataset location disableQueryCache dryRun delimiter oracle
        (index :: rest) k queries errorCount w
      = match (runOne qd project dataset location disableQueryCache dryRun delimiter (oracle k)
          (w.emit (.call dryRun index))).exit with
        | .panicked msg =>
          (queries, (runOne qd project dataset location disableQueryCache dryRun delimiter
            (oracle k) (w.emit (.call dryRun index))).world, .panicked msg)
        | .returned _ =>
          ExecuteQueries.loop project dataset location disableQueryCache dryRun delimiter oracle
            rest (k + 1) queries
            (if (runOne qd project dataset location disableQueryCache dryRun delimiter (oracle k)
                (w.emit (.call dryRun index))).qd.Error.isSome then errorCount + 1
              else errorCount)
            (logOne dryRun (runOne qd project dataset location disableQueryCache dryRun
              delimiter (oracle k) (w.emit (.call dryRun index)))) := by
  rw [ExecuteQueries.loop]
  simp only [if_neg (not_lt.mpr hidx), hq]
  rfl

/-- One step of the sequence of runs, for an entry that is in range. -/
theorem sequentialRuns_cons (queries : Queries) (project dataset location : String)
    (disableQueryCache dryRun : Bool) (delimiter : List UInt8) (oracle : Nat → RunEnv)
    (index : Int) (rest : List Int) (k : Nat) (w : World)
    (qd : QueryDetails) (hq : queries.Query[index.toNat]? = some qd) :
    sequentialRuns queries project dataset location disableQueryCache dryRun delimiter oracle
        (index :: rest) k w
      = (runOne qd project dataset location disableQueryCache dryRun delimiter (oracle k)
            (w.emit (.call dryRun index)) ::
          (sequentialRuns queries project dataset location disableQueryCache dryRun delimiter
            oracle rest (k + 1)
            (logOne dryRun (runOne qd project dataset location disableQueryCache dryRun
              delimiter (oracle k) (w.emit (.call dryRun index))))).1,
        (sequentialRuns queries project dataset location disableQueryCache dryRun delimiter
            oracle rest (k + 1)
            (logOne dryRun (runOne qd project dataset location disableQueryCache dryRun
              delimiter (oracle k) (w.emit (.call dryRun index))))).2) := by
  rw [sequentialRuns]
  simp only [hq]

/-- The loop of `ExecuteQueries` on a batch whose entries are in range and whose
runs all return: it returns, with the batch as it was, in the world the sequence
of runs leaves, and with `errorCount` raised by the number of runs that left
`Error` set. -/
theorem ExecuteQueries.loop_eq_runs (queries : Queries) (project dataset location : String)
    (disableQueryCache dryRun : Bool) (delimiter : List UInt8) (oracle : Nat → RunEnv) :
    ∀ (order : List Int) (k : Nat) (errorCount : Int) (w : World),
      (∀ index ∈ order, 0 ≤ index ∧ index.toNat < queries.Query.length) →
      (∀ i < order.length, (oracle (k + i)).reachesNoPanic dryRun delimiter = true) →
      ExecuteQueries.loop project dataset location disableQueryCache dryRun delimiter oracle
          order k queries errorCount w
        = (queries,
            (sequentialRuns queries project dataset location disableQueryCache dryRun delimiter
              oracle order k w).2,
            .returned (errorCount +
              (((sequentialRuns queries project dataset location disableQueryCache dryRun
                delimiter oracle order k w).1.countP (fun r => r.qd.Error.isSome) : Nat) : Int))) := by
  intro order
  induction order with
  | nil =>
    intro k errorCount w _ _
    simp [ExecuteQueries.loop, sequentialRuns]
  | cons index rest ih =>
    intro k errorCount w hrange hret
    obtain ⟨hidx0, hidx1⟩ := hrange index (List.mem_cons_self _ _)
    have hq : queries.Query[index.toNat]? = some (queries.Query[index.toNat]) :=
      List.getElem?_eq_getElem hidx1
    generalize queries.Query[index.toNat] = qd at hq
    have r1 := (runOne_spec qd project dataset location disableQueryCache dryRun delimiter
      (oracle k) (w.emit (.call dryRun index)) (by simpa using hret 0 (by simp))).1
    rw [ExecuteQueries.loop_cons _ _ _ _ _ _ _ _ _ _ _ _ _ qd hidx0 hq,
      sequentialRuns_cons _ _ _ _ _ _ _ _ _ _ _ _ qd hq]
    simp only [r1]
    rw [ih (k + 1) _ _ (fun i hi => hrange i (List.mem_cons_of_mem _ hi))
      (fun i hi => by
        have := hret (i + 1) (by simpa using hi)
        rwa [show k + (i + 1) = k + 1 + i by omega] at this)]
    congr 3
    rw [List.countP_cons]
    split <;> simp_all
    omega

/-- The sequence of runs of a batch whose entries are in range and whose runs all
return: one run per entry, the runner calls are the entries in order, and the
records handed to the logging are the records the runs left. -/
theorem sequentialRuns_spec (queries : Queries) (project dataset location : String)
    (disableQueryCache dryRun : Bool) (delimiter : List UInt8) (oracle : Nat → RunEnv) :
    ∀ (order : List Int) (k : Nat) (w : World),
      (∀ index ∈ order, 0 ≤ index ∧ index.toNat < queries.Query.length) →
      (∀ i < order.length, (oracle (k + i)).reachesNoPanic dryRun delimiter = true) →
      (sequentialRuns queries project dataset location disableQueryCache dryRun delimiter
          oracle order k w).1.length = order.length ∧
      runnerCalls (sequentialRuns queries project dataset location disableQueryCache dryRun
          delimiter oracle order k w).2.events
        = runnerCalls w.events ++ order.map (fun index => (dryRun, index)) ∧
      loggedRecords (sequentialRuns queries project dataset location disableQueryCache dryRun
          delimiter oracle order k w).2.events
        = loggedRecords w.events ++
          (sequentialRuns queries project dataset location disableQueryCache dryRun delimiter
            oracle order k w).1.map (fun r => r.qd) := by
  intro order
  induction order with
  | nil =>
    intro k w _ _
    simp [sequentialRuns]
  | cons index rest ih =>
    intro k w hrange hret
    obtain ⟨hidx0, hidx1⟩ := hrange index (List.mem_cons_self _ _)
    have hq : queries.Query[index.toNat]? = some (queries.Query[index.toNat]) :=
      List.getElem?_eq_getElem hidx1
    generalize queries.Query[index.toNat] = qd at hq
    obtain ⟨_, _, r3, r4⟩ := runOne_spec qd project dataset location disableQueryCache dryRun
      delimiter (oracle k) (w.emit (.call dryRun index)) (by simpa using hret 0 (by simp))
    rw [sequentialRuns_cons _ _ _ _ _ _ _ _ _ _ _ _ qd hq]
    generalize runOne qd project dataset location disableQueryCache dryRun delimiter (oracle k)
      (w.emit (.call dryRun index)) = r at r3 r4
    obtain ⟨e1, e2, e3⟩ := ih (k + 1) (logOne dryRun r)
      (fun i hi => hrange i (List.mem_cons_of_mem _ hi))
      (fun i hi => by
        have := hret (i + 1) (by simpa using hi)
        rwa [show k + (i + 1) = k + 1 + i by omega] at this)
    simp only [World.emit, runnerCalls_append] at r3
    simp only [World.emit, loggedRecords_append] at r4
    refine ⟨by simp [e1], ?_, ?_⟩
    · simp only [e2]
      cases dryRun <;>
        · simp only [logOne, World.emit, runnerCalls_append, if_true, if_false,
            Bool.false_eq_true]
          rw [r3]
          simp [runnerCalls]
    · simp only [e3]
      cases dryRun <;>
        · simp only [logOne, World.emit, loggedRecords_append, if_true, if_false,
            Bool.false_eq_true]
          rw [r4]
          simp [loggedRecords]

/-- The run at each position of the sequence of runs is the runner of the
selected mode on the record at that entry of the order, entered right after the
call is recorded, with what the run at that position meets outside. -/
theorem sequentialRuns_get (queries : Queries) (project dataset location : String)
    (disableQueryCache dryRun : Bool) (delimiter : List UInt8) (oracle : Nat → RunEnv) :
    ∀ (order : List Int) (k : Nat) (w : World),
      (∀ index ∈ order, 0 ≤ index ∧ index.toNat < queries.Query.length) →
      ∀ (i : Nat) (index : Int), order[i]? = some index →
        ∃ (qd : QueryDetails) (wi : World),
          queries.Query[index.toNat]? = some qd ∧
          (sequentialRuns queries project dataset location disableQueryCache dryRun delimiter
              oracle order k w).1[i]?
            = some (runOne qd project dataset location disableQueryCache dryRun delimiter
                (oracle (k + i)) (wi.emit (.call dryRun index))) := by
  intro order
  induction order with
  | nil => intro k w _ i index hi; simp at hi
  | cons head rest ih =>
    intro k w hrange i index hi
    obtain ⟨_, hidx1⟩ := hrange head (List.mem_cons_self _ _)
    have hq : queries.Query[head.toNat]? = some (queries.Query[head.toNat]) :=
      List.getElem?_eq_getElem hidx1
    generalize queries.Query[head.toNat] = qd at hq
    rw [sequentialRuns_cons _ _ _ _ _ _ _ _ _ _ _ _ qd hq]
    cases i with
    | zero =>
      simp only [List.getElem?_cons_zero, Option.some.injEq] at hi
      subst hi
      exact ⟨qd, w, hq, by simp⟩
    | succ i =>
      simp only [List.getElem?_cons_succ] at hi
      obtain ⟨qd1, wi, h1, h2⟩ := ih (k + 1) _
        (fun j hj => hrange j (List.mem_cons_of_mem _ hj)) i index hi
      refine ⟨qd1, wi, h1, ?_⟩
      rw [List.getElem?_cons_succ, h2, show k + 1 + i = k + (i + 1) by omega]

/-- When no stored record has `Error` set, the runs of the sequence that leave
`Error` set are the failing runs. -/
theorem sequentialRuns_failed (queries : Queries) (project dataset location : String)
    (disableQueryCache dryRun : Bool) (delimiter : List UInt8) (oracle : Nat → RunEnv)
    (hnone : ∀ qd ∈ queries.Query, qd.Error = none) :
    ∀ (order : List Int) (k : Nat) (w : World),
      (∀ index ∈ order, 0 ≤ index ∧ index.toNat < queries.Query.length) →
      (∀ i < order.length, (oracle (k + i)).reachesNoPanic dryRun delimiter = true) →
      (sequentialRuns queries project dataset location disableQueryCache dryRun delimiter
          oracle order k w).1.countP (fun r => r.qd.Error.isSome)
        = failedRuns oracle dryRun k order.length := by
  intro order
  induction order with
  | nil => intro k w _ _; simp [sequentialRuns, failedRuns]
  | cons index rest ih =>
    intro k w hrange hret
    obtain ⟨_, hidx1⟩ := hrange index (List.mem_cons_self _ _)
    have hq : queries.Query[index.toNat]? = some (queries.Query[index.toNat]) :=
      List.getElem?_eq_getElem hidx1
    have hmem : queries.Query[index.toNat] ∈ queries.Query := List.getElem_mem hidx1
    generalize queries.Query[index.toNat] = qd at hq hmem
    have r2 := (runOne_spec qd project dataset location disableQueryCache dryRun delimiter
      (oracle k) (w.emit (.call dryRun index)) (by simpa using hret 0 (by simp))).2.1
    rw [sequentialRuns_cons _ _ _ _ _ _ _ _ _ _ _ _ qd hq]
    simp only [List.countP_cons, List.length_cons]
    rw [ih (k + 1) _ (fun i hi => hrange i (List.mem_cons_of_mem _ hi))
      (fun i hi => by
        have := hret (i + 1) (by simpa using hi)
        rwa [show k + (i + 1) = k + 1 + i by omega] at this),
      failedRuns_succ, r2, hnone qd hmem]
    simp only [Option.isSome_none, Bool.false_or]
    omega

/-- The loop of `ExecuteQueries` stops with a panic when an entry of the order is
out of range or a run reaches an out-of-range `delimiter[0]`. -/
theorem ExecuteQueries.loop_panics (queries : Queries) (project dataset location : String)
    (disableQueryCache dryRun : Bool) (delimiter : List UInt8) (oracle : Nat → RunEnv) :
    ∀ (order : List Int) (k : Nat) (errorCount : Int) (w : World),
      (¬ (∀ index ∈ order, 0 ≤ index ∧ index.toNat < queries.Query.length) ∨
        ∃ i, i < order.length ∧ (oracle (k + i)).reachesNoPanic dryRun delimiter = false) →
      ∃ (w1 : World) (msg : String),
        ExecuteQueries.loop project dataset location disableQueryCache dryRun delimiter oracle
          order k queries errorCount w = (queries, w1, .panicked msg) := by
  intro order
  induction order with
  | nil =>
    intro k errorCount w h
    rcases h with h | ⟨i, hi, _⟩
    · exact absurd (fun index hmem => by simp at hmem) h
    · simp at hi
  | cons index rest ih =>
    intro k errorCount w h
    by_cases hin : 0 ≤ index ∧ index.toNat < queries.Query.length
    · obtain ⟨hidx0, hidx1⟩ := hin
      have hq : queries.Query[index.toNat]? = some (queries.Query[index.toNat]) :=
        List.getElem?_eq_getElem hidx1
      generalize queries.Query[index.toNat] = qd at hq
      rw [ExecuteQueries.loop_cons _ _ _ _ _ _ _ _ _ _ _ _ _ qd hidx0 hq]
      cases hp : (oracle k).reachesNoPanic dryRun delimiter with
      | false =>
        rw [runOne_panics qd project dataset location disableQueryCache dryRun delimiter
          (oracle k) (w.emit (.call dryRun index)) hp]
        exact ⟨_, _, rfl⟩
      | true =>
        rw [(runOne_spec qd project dataset location disableQueryCache dryRun delimiter
          (oracle k) (w.emit (.call dryRun index)) hp).1]
        apply ih
        rcases h with h | ⟨i, hi, hf⟩
        · left
          intro hrest
          apply h
          intro j hj
          rcases List.mem_cons.mp hj with rfl | hj
          · exact ⟨hidx0, hidx1⟩
          · exact hrest j hj
        · right
          cases i with
          | zero => simp [hp] at hf
          | succ i =>
            exact ⟨i, by simpa using hi, by
              rwa [show k + (i + 1) = k + 1 + i by omega] at hf⟩
    · rw [ExecuteQueries.loop]
      by_cases hneg : index < 0
      · simp only [if_pos hneg]
        exact ⟨_, _, rfl⟩
      · simp only [if_neg hneg]
        have hnone : queries.Query[index.toNat]? = none := by
          apply List.getElem?_eq_none
          have : ¬ index.toNat < queries.Query.length := fun hlt => hin ⟨by omega, hlt⟩
          omega
        simp only [hnone]
        exact ⟨_, _, rfl⟩

/-- The method `ExecuteQueries` with an established connection, on a batch whose
entries are in range and whose runs all return: it returns, in the world the
sequence of runs leaves followed by the deferred `client.Close()`, an error that
is non-nil exactly when a run left `Error` set. -/
theorem ExecuteQueries.eq_runs (queries : Queries) (project dataset location : String)
    (disableQueryCache dryRun : Bool) (delimiter : List UInt8) (oracle : Nat → RunEnv)
    (w : World)
    (hrange : queries.InRange)
    (hret : ∀ k < queries.ExecutionOrder.length,
      (oracle k).reachesNoPanic dryRun delimiter = true) :
    ExecuteQueries queries project dataset location disableQueryCache dryRun delimiter none
        oracle w
      = { queries := queries,
          world := (sequentialRuns queries project dataset location disableQueryCache dryRun
            delimiter oracle queries.ExecutionOrder 0 (w.emit (.newClient project))).2.emit
              .clientClose,
          exit := .returned
            (if 0 < (sequentialRuns queries project dataset location disableQueryCache dryRun
                delimiter oracle queries.ExecutionOrder 0
                (w.emit (.newClient project))).1.countP (fun r => r.qd.Error.isSome)
              then some "One or More Queries Failed" else none) } := by
  have h := ExecuteQueries.loop_eq_runs queries project dataset location disableQueryCache
    dryRun delimiter oracle queries.ExecutionOrder 0 0 (w.emit (.newClient project)) hrange
    (fun i hi => by simpa using hret i hi)
  simp only [ExecuteQueries, h]
  congr 2
  simp

/-- The method `ExecuteQueries` with an established connection stops with a panic
when an entry of the order is out of range or a run reaches an out-of-range
`delimiter[0]`. -/
theorem ExecuteQueries.panics (queries : Queries) (project dataset location : String)
    (disableQueryCache dryRun : Bool) (delimiter : List UInt8) (oracle : Nat → RunEnv)
    (w : World)
    (h : ¬ (queries.InRange ∧ ∀ k < queries.ExecutionOrder.length,
      (oracle k).reachesNoPanic dryRun delimiter = true)) :
    ∃ msg : String,
      (ExecuteQueries queries project dataset location disableQueryCache dryRun delimiter none
        oracle w).exit = .panicked msg := by
  have h2 : ¬ (∀ index ∈ queries.ExecutionOrder,
        0 ≤ index ∧ index.toNat < queries.Query.length) ∨
      ∃ i, i < queries.ExecutionOrder.length ∧
        (oracle (0 + i)).reachesNoPanic dryRun delimiter = false := by
    by_cases hr : queries.InRange
    · right
      by_contra hne
      apply h
      refine ⟨hr, fun k hk => ?_⟩
      cases hv : (oracle k).reachesNoPanic dryRun delimiter with
      | true => rfl
      | false => exact absurd ⟨k, hk, by simpa using hv⟩ hne
    · exact Or.inl hr
  obtain ⟨w1, msg, e⟩ := ExecuteQueries.loop_panics queries project dataset location
    disableQueryCache dryRun delimiter oracle queries.ExecutionOrder 0 0
    (w.emit (.newClient project)) h2
  exact ⟨msg, by simp only [ExecuteQueries, e]⟩

/-! ## `ExecuteQueries`: the claims -/

/-- C1 as stated fails.  Live mode with the empty delimiter, the connection
established and no stored record carrying an error: the run at position 0 fails at
submission, the run at position 1 opens its output file and stops at
`delimiter[0]`, so one run failed and `ExecuteQueries` returns nothing.  And on a
batch whose order names a record that is not there, no run fails and
`ExecuteQueries` does not return nil: it stops at `queries.Query[index]`. -/
theorem C1_counterexample :
    (∀ qd ∈ twoQueries.Query, qd.Error = none) ∧
    failedRuns firstRunFails false 0 twoQueries.ExecutionOrder.length = 1 ∧
    (ExecuteQueries twoQueries "p" "d" "EU" false false [] none firstRunFails
        World.start).exit = .panicked "index out of range [0] with length 0" ∧
    (∀ qd ∈ outOfRange.Query, qd.Error = none) ∧
    failedRuns everyRunSucceeds false 0 outOfRange.ExecutionOrder.length = 0 ∧
    (ExecuteQueries outOfRange "p" "d" "EU" false false commaDelimiter none everyRunSucceeds
        World.start).exit = .panicked "index out of range" := by
  decide

/-- C1, amended: with the client connection established, on a batch whose entries
of `ExecutionOrder` index `Query`, whose runs do not reach the out-of-range
`delimiter[0]` of line 206 (dry-run mode, or a delimiter that is not empty, or a
run that ends before its output file is opened) and whose stored records carry no
error, `ExecuteQueries` (live or dry run) returns, and the error it returns is
non-nil exactly when the number of failing runs over `ExecutionOrder` is positive
and nil exactly when no run failed.  When an entry is out of range or a run
reaches the out-of-range `delimiter[0]`, `ExecuteQueries` stops with a panic and
returns nothing. -/
theorem C1_error_iff_some_run_failed (queries : Queries) (project dataset location : String)
    (disableQueryCache dryRun : Bool) (delimiter : List UInt8) (oracle : Nat → RunEnv)
    (w : World) :
    (queries.InRange →
      (∀ k < queries.ExecutionOrder.length,
        (oracle k).reachesNoPanic dryRun delimiter = true) →
      (∀ qd ∈ queries.Query, qd.Error = none) →
      ∃ err : Option String,
        (ExecuteQueries queries project dataset location disableQueryCache dryRun delimiter none
            oracle w).exit = .returned err ∧
        (err ≠ none ↔ 0 < failedRuns oracle dryRun 0 queries.ExecutionOrder.length) ∧
        (err = none ↔ failedRuns oracle dryRun 0 queries.ExecutionOrder.length = 0)) ∧
    (¬ (queries.InRange ∧ ∀ k < queries.ExecutionOrder.length,
        (oracle k).reachesNoPanic dryRun delimiter = true) →
      ∃ msg : String,
        (ExecuteQueries queries project dataset location disableQueryCache dryRun delimiter none
            oracle w).exit = .panicked msg) := by
  refine ⟨fun hrange hret hnone => ?_,
    ExecuteQueries.panics queries project dataset location disableQueryCache dryRun delimiter
      oracle w⟩
  rw [ExecuteQueries.eq_runs queries project dataset location disableQueryCache dryRun
    delimiter oracle w hrange hret,
    sequentialRuns_failed queries project dataset location disableQueryCache dryRun delimiter
      oracle hnone queries.ExecutionOrder 0 (w.emit (.newClient project)) hrange
      (fun i hi => by simpa using hret i hi)]
  refine ⟨_, rfl, ?_, ?_⟩
  · by_cases h : 0 < failedRuns oracle dryRun 0 queries.ExecutionOrder.length <;> simp [h]
  · by_cases h : 0 < failedRuns oracle dryRun 0 queries.ExecutionOrder.length
    · simp only [if_pos h]
      constructor
      · intro hs; exact absurd hs (by simp)
      · intro h0; omega
    · simp only [if_neg h]
      constructor
      · intro _; omega
      · intro _; trivial

/-- C1, amended, on two records run live in the order second, first, the run at
position 0 failing at submission and the later run still counted: an error is
returned, for one failed run. -/
theorem C1_error_iff_some_run_failed_witness :
    (∃ err : Option String,
      (ExecuteQueries twoQueries "p" "d" "EU" false false commaDelimiter none firstRunFails
          World.start).exit = .returned err ∧
      (err ≠ none ↔ 0 < failedRuns firstRunFails false 0 twoQueries.ExecutionOrder.length) ∧
      (err = none ↔ failedRuns firstRunFails false 0 twoQueries.ExecutionOrder.length = 0)) ∧
    (ExecuteQueries twoQueries "p" "d" "EU" false false commaDelimiter none firstRunFails
        World.start).exit = .returned (some "One or More Queries Failed") ∧
    failedRuns firstRunFails false 0 twoQueries.ExecutionOrder.length = 1 :=
  ⟨(C1_error_iff_some_run_failed twoQueries "p" "d" "EU" false false commaDelimiter
      firstRunFails World.start).1 (by unfold Queries.InRange; decide) (fun _ _ => rfl)
      (by decide),
    by decide, by decide⟩

/-- C2 as stated fails.  Live mode with the empty delimiter on two records in the
order second, first, every run succeeding: the run at position 0 opens its output
file and stops at `delimiter[0]`, so the runner is called for the entry 1 only and
the entry 0 is never run. -/
theorem C2_counterexample :
    twoQueries.ExecutionOrder = [1, 0] ∧
    (ExecuteQueries twoQueries "p" "d" "EU" false false [] none everyRunSucceeds
        World.start).exit = .panicked "index out of range [0] with length 0" ∧
    runnerCalls (ExecuteQueries twoQueries "p" "d" "EU" false false [] none everyRunSucceeds
        World.start).world.events = [(false, 1)] ∧
    (loggedRecords (ExecuteQueries twoQueries "p" "d" "EU" false false [] none
        everyRunSucceeds World.start).world.events).length = 0 := by
  decide

/-- C2, amended: with the client connection established, on a batch whose entries
of `ExecutionOrder` index `Query` and whose runs do not reach the out-of-range
`delimiter[0]` of line 206, `ExecuteQueries` returns and what it does is the
sequence of runs: one run per entry of `ExecutionOrder`, the run at position `i`
being the runner of the selected mode (`ExecuteDryRun` when `dryRun` is set,
`ExecuteQuery` otherwise) on the record at entry `i`, whichever runs fail.  The
world it leaves is the world of these runs and their loggings followed by the
deferred `client.Close()`; the runner calls it adds are the entries of
`ExecutionOrder` in order, so there are `len(ExecutionOrder)` of them, and the
records logged are the records the runs left. -/
theorem C2_runner_called_once_per_entry (queries : Queries)
    (project dataset location : String) (disableQueryCache dryRun : Bool)
    (delimiter : List UInt8) (oracle : Nat → RunEnv) (w : World)
    (hrange : queries.InRange)
    (hret : ∀ k < queries.ExecutionOrder.length,
      (oracle k).reachesNoPanic dryRun delimiter = true) :
    (∃ err : Option String,
      (ExecuteQueries queries project dataset location disableQueryCache dryRun delimiter none
          oracle w).exit = .returned err) ∧
    (ExecuteQueries queries project dataset location disableQueryCache dryRun delimiter none
        oracle w).world
      = (sequentialRuns queries project dataset location disableQueryCache dryRun delimiter
          oracle queries.ExecutionOrder 0 (w.emit (.newClient project))).2.emit .clientClose ∧
    (sequentialRuns queries project dataset location disableQueryCache dryRun delimiter
        oracle queries.ExecutionOrder 0 (w.emit (.newClient project))).1.length
      = queries.ExecutionOrder.length ∧
    (∀ (i : Nat) (index : Int), queries.ExecutionOrder[i]? = some index →
      ∃ (qd : QueryDetails) (wi : World),
        queries.Query[index.toNat]? = some qd ∧
        (sequentialRuns queries project dataset location disableQueryCache dryRun delimiter
            oracle queries.ExecutionOrder 0 (w.emit (.newClient project))).1[i]?
          = some (if dryRun then
              ExecuteDryRun qd project dataset location disableQueryCache (oracle i).dry
                (wi.emit (.call dryRun index))
            else
              ExecuteQuery qd project dataset location disableQueryCache delimiter
                (oracle i).live (wi.emit (.call dryRun index)))) ∧
    runnerCalls (ExecuteQueries queries project dataset location disableQueryCache dryRun
        delimiter none oracle w).world.events
      = runnerCalls w.events ++ queries.ExecutionOrder.map (fun index => (dryRun, index)) ∧
    (runnerCalls (ExecuteQueries queries project dataset location disableQueryCache dryRun
        delimiter none oracle w).world.events).length
      = (runnerCalls w.events).length + queries.ExecutionOrder.length ∧
    loggedRecords (ExecuteQueries queries project dataset location disableQueryCache dryRun
        delimiter none oracle w).world.events
      = loggedRecords w.events ++
        (sequentialRuns queries project dataset location disableQueryCache dryRun delimiter
          oracle queries.ExecutionOrder 0 (w.emit (.newClient project))).1.map
          (fun r => r.qd) := by
  obtain ⟨s1, s2, s3⟩ := sequentialRuns_spec queries project dataset location
    disableQueryCache dryRun delimiter oracle queries.ExecutionOrder 0
    (w.emit (.newClient project)) hrange (fun i hi => by simpa using hret i hi)
  have hcalls : runnerCalls (ExecuteQueries queries project dataset location disableQueryCache
      dryRun delimiter none oracle w).world.events
      = runnerCalls w.events ++ queries.ExecutionOrder.map (fun index => (dryRun, index)) := by
    rw [ExecuteQueries.eq_runs queries project dataset location disableQueryCache dryRun
      delimiter oracle w hrange hret]
    simp only [World.emit, runnerCalls_append] at s2 ⊢
    rw [s2]
    simp [runnerCalls]
  refine ⟨?_, ?_, s1, ?_, hcalls, by rw [hcalls]; simp, ?_⟩
  · rw [ExecuteQueries.eq_runs queries project dataset location disableQueryCache dryRun
      delimiter oracle w hrange hret]
    exact ⟨_, rfl⟩
  · rw [ExecuteQueries.eq_runs queries project dataset location disableQueryCache dryRun
      delimiter oracle w hrange hret]
  · intro i index hi
    obtain ⟨qd, wi, h1, h2⟩ := sequentialRuns_get queries project dataset location
      disableQueryCache dryRun delimiter oracle queries.ExecutionOrder 0
      (w.emit (.newClient project)) hrange i index hi
    refine ⟨qd, wi, h1, ?_⟩
    rw [h2, Nat.zero_add]
    rfl
  · rw [ExecuteQueries.eq_runs queries project dataset location disableQueryCache dryRun
      delimiter oracle w hrange hret]
    simp only [World.emit, loggedRecords_append] at s3 ⊢
    rw [s3]
    simp [loggedRecords]

/-- C2, amended, on two records run as dry runs in the order second, first, the
run at position 0 being rejected: the runner is still called for the entry after
it, both runs submit their query, and both records are logged. -/
theorem C2_runner_called_once_per_entry_witness :
    runnerCalls (ExecuteQueries twoQueries "p" "d" "EU" false true commaDelimiter none
        firstRunFails World.start).world.events
      = runnerCalls World.start.events
        ++ twoQueries.ExecutionOrder.map (fun index => (true, index)) ∧
    (ExecuteQueries twoQueries "p" "d" "EU" false true commaDelimiter none firstRunFails
        World.start).world.events.map
        (fun e => match e with
          | Event.call _ index => ("call", index)
          | Event.run q => (q.Q, 0)
          | Event.logExecuteDryRun qd => ("log", qd.Number)
          | _ => ("", 0))
      = [("", 0), ("call", 1), ("SELECT 2", 0), ("log", 2),
          ("call", 0), ("SELECT 1", 0), ("log", 1), ("", 0)] ∧
    (loggedRecords (ExecuteQueries twoQueries "p" "d" "EU" false true commaDelimiter none
        firstRunFails World.start).world.events).map (fun qd => (qd.Number, qd.Error))
      = [(2, some "invalid query"), (1, none)] :=
  ⟨(C2_runner_called_once_per_entry twoQueries "p" "d" "EU" false true commaDelimiter
      firstRunFails World.start (by unfold Queries.InRange; decide) (fun _ _ => rfl)).2.2.2.2.1,
    by decide, by decide⟩

/-- C3 as stated fails: on two records run live, the run of the first record
fails at submission, `ExecuteQueries` returns an error for one failed run, and
yet no record stored in the batch has `Error` set or a start time; the outcome is
in the copies handed to the logging. -/
theorem C3_counterexample :
    (ExecuteQueries twoQueries "p" "d" "EU" false false commaDelimiter none secondRunFails
        World.start).exit = .returned (some "One or More Queries Failed") ∧
    failedRuns secondRunFails false 0 twoQueries.ExecutionOrder.length = 1 ∧
    (ExecuteQueries twoQueries "p" "d" "EU" false false commaDelimiter none secondRunFails
        World.start).queries.Query.countP (fun qd => qd.Error.isSome) = 0 ∧
    (ExecuteQueries twoQueries "p" "d" "EU" false false commaDelimiter none secondRunFails
        World.start).queries.Query.map (fun qd => (qd.Number, qd.Error, qd.QueryStartTime))
      = [(1, none, 0), (2, none, 0)] ∧
    (loggedRecords (ExecuteQueries twoQueries "p" "d" "EU" false false commaDelimiter none
        secondRunFails World.start).world.events).map
        (fun qd => (qd.Number, qd.Error, qd.QueryStartTime))
      = [(2, none, 1), (1, some "connection refused", 5)] := by
  decide

/-- C3, amended: the runner mutates a copy of the stored record.  On every path,
whatever the connection, the order and the delimiter, the batch after
`ExecuteQueries` is the batch before it.  With the connection established, on a
batch whose entries of `ExecutionOrder` index `Query` and whose runs do not reach
the out-of-range `delimiter[0]` of line 206, the records handed to the logging
are, in order, the records the runs left: for every entry the logged record is
what the runner of the selected mode made of a copy of `queries.Query[index]`,
with the timestamps and `TotalRowsReturned` the run set and with `Error` set
exactly when it was set on the stored record or the run failed; the returned
error is non-nil exactly when one of these copies has `Error` set, and when no
stored record has `Error` set, each copy has `Error` set exactly when its run
failed and the number of such copies is the number of failed runs. -/
theorem C3_outcome_held_by_copy (queries : Queries) (project dataset location : String)
    (disableQueryCache dryRun : Bool) (delimiter : List UInt8) (newClient : Option String)
    (oracle : Nat → RunEnv) (w : World) :
    (ExecuteQueries queries project dataset location disableQueryCache dryRun delimiter
        newClient oracle w).queries = queries ∧
    (queries.InRange →
      (∀ k < queries.ExecutionOrder.length, (oracle k).reachesNoPanic dryRun delimiter = true) →
      loggedRecords (ExecuteQueries queries project dataset location disableQueryCache dryRun
          delimiter none oracle w).world.events
        = loggedRecords w.events ++
          (sequentialRuns queries project dataset location disableQueryCache dryRun delimiter
            oracle queries.ExecutionOrder 0 (w.emit (.newClient project))).1.map
            (fun r => r.qd) ∧
      (sequentialRuns queries project dataset location disableQueryCache dryRun delimiter
          oracle queries.ExecutionOrder 0 (w.emit (.newClient project))).1.length
        = queries.ExecutionOrder.length ∧
      (∀ (i : Nat) (index : Int), queries.ExecutionOrder[i]? = some index →
        ∃ (qd : QueryDetails) (wi : World),
          queries.Query[index.toNat]? = some qd ∧
          (sequentialRuns queries project dataset location disableQueryCache dryRun delimiter
              oracle queries.ExecutionOrder 0 (w.emit (.newClient project))).1[i]?
            = some (if dryRun then
                ExecuteDryRun qd project dataset location disableQueryCache (oracle i).dry
                  (wi.emit (.call dryRun index))
              else
                ExecuteQuery qd project dataset location disableQueryCache delimiter
                  (oracle i).live (wi.emit (.call dryRun index))) ∧
          (if dryRun then
              ExecuteDryRun qd project dataset location disableQueryCache (oracle i).dry
                (wi.emit (.call dryRun index))
            else
              ExecuteQuery qd project dataset location disableQueryCache delimiter
                (oracle i).live (wi.emit (.call dryRun index))).qd.Error.isSome
            = (qd.Error.isSome || (oracle i).fails dryRun)) ∧
      (ExecuteQueries queries project dataset location disableQueryCache dryRun delimiter none
          oracle w).exit
        = .returned
          (if 0 < (sequentialRuns queries project dataset location disableQueryCache dryRun
              delimiter oracle queries.ExecutionOrder 0
              (w.emit (.newClient project))).1.countP (fun r => r.qd.Error.isSome)
            then some "One or More Queries Failed" else none) ∧
      ((∀ qd ∈ queries.Query, qd.Error = none) →
        (sequentialRuns queries project dataset location disableQueryCache dryRun delimiter
            oracle queries.ExecutionOrder 0
            (w.emit (.newClient project))).1.countP (fun r => r.qd.Error.isSome)
          = failedRuns oracle dryRun 0 queries.ExecutionOrder.length)) := by
  constructor
  · cases newClient with
    | some err => rfl
    | none =>
      have h := ExecuteQueries.loop_queries queries project dataset location disableQueryCache
        dryRun delimiter oracle queries.ExecutionOrder 0 0 (w.emit (.newClient project))
      unfold ExecuteQueries
      simp only []
      split
      · rename_i heq; rw [heq] at h; exact h
      · rename_i heq; rw [heq] at h; exact h
  · intro hrange hret
    obtain ⟨s1, _, s3⟩ := sequentialRuns_spec queries project dataset location
      disableQueryCache dryRun delimiter oracle queries.ExecutionOrder 0
      (w.emit (.newClient project)) hrange (fun i hi => by simpa using hret i hi)
    refine ⟨?_, s1, ?_, ?_, ?_⟩
    · rw [ExecuteQueries.eq_runs queries project dataset location disableQueryCache dryRun
        delimiter oracle w hrange hret]
      simp only [World.emit, loggedRecords_append] at s3 ⊢
      rw [s3]
      simp [loggedRecords]
    · intro i index hi
      obtain ⟨qd, wi, h1, h2⟩ := sequentialRuns_get queries project dataset location
        disableQueryCache dryRun delimiter oracle queries.ExecutionOrder 0
        (w.emit (.newClient project)) hrange i index hi
      have hi2 : i < queries.ExecutionOrder.length := (List.getElem?_eq_some.mp hi).1
      refine ⟨qd, wi, h1, ?_, ?_⟩
      · rw [h2, Nat.zero_add]
        rfl
      · exact (runner_spec qd project dataset location disableQueryCache dryRun delimiter
          (oracle i) (wi.emit (.call dryRun index)) (hret i hi2)).2.1
    · rw [ExecuteQueries.eq_runs queries project dataset location disableQueryCache dryRun
        delimiter oracle w hrange hret]
    · intro hnone
      exact sequentialRuns_failed queries project dataset location disableQueryCache dryRun
        delimiter oracle hnone queries.ExecutionOrder 0 (w.emit (.newClient project)) hrange
        (fun i hi => by simpa using hret i hi)

/-- C3, amended, on two records run live with one failing run: the batch is
unchanged and the two logged records are the records the runs left. -/
theorem C3_outcome_held_by_copy_witness :
    (ExecuteQueries twoQueries "p" "d" "EU" false false commaDelimiter none secondRunFails
        World.start).queries = twoQueries ∧
    loggedRecords (ExecuteQueries twoQueries "p" "d" "EU" false false commaDelimiter none
        secondRunFails World.start).world.events
      = loggedRecords World.start.events ++
        (sequentialRuns twoQueries "p" "d" "EU" false false commaDelimiter secondRunFails
          twoQueries.ExecutionOrder 0 (World.start.emit (.newClient "p"))).1.map
          (fun r => r.qd) ∧
    (sequentialRuns twoQueries "p" "d" "EU" false false commaDelimiter secondRunFails
        twoQueries.ExecutionOrder 0 (World.start.emit (.newClient "p"))).1.map
        (fun r => (r.qd.Number, r.qd.Error, r.qd.QueryStartTime, r.qd.QueryEndTime,
          r.qd.FirstRowReturnedTime, r.qd.AllRowsReturnedTime, r.qd.TotalRowsReturned))
      = [(2, none, 1, 2, 3, 4, 0), (1, some "connection refused", 5, 6, 0, 0, 0)] :=
  have h := C3_outcome_held_by_copy twoQueries "p" "d" "EU" false false commaDelimiter none
    secondRunFails World.start
  ⟨h.1, (h.2 (by unfold Queries.InRange; decide) (fun _ _ => rfl)).1, rfl⟩

/-! ## `ExecuteQuery`: the claims -/

/-- The loop of `ExecuteQuery` leaves `QueryEndTime` alone. -/
theorem ExecuteQuery.loop_queryEndTime (f : String) (comma : Nat) (last : Option String) :
    ∀ (rows : List (Row × Option String)) (rowCount : Int) (qd : QueryDetails) (w : World),
      (ExecuteQuery.loop f comma last rows rowCount qd w).1.QueryEndTime = qd.QueryEndTime := by
  intro rows
  induction rows with
  | nil =>
    intro rowCount qd w
    unfold ExecuteQuery.loop ExecuteQuery.stamp
    cases last <;> simp only [] <;> split <;> rfl
  | cons r rest ih =>
    intro rowCount qd w
    obtain ⟨row, writeErr⟩ := r
    unfold ExecuteQuery.loop
    cases writeErr with
    | some e => unfold ExecuteQuery.stamp; simp only []; split <;> rfl
    | none =>
      simp only [ih]
      unfold ExecuteQuery.stamp
      split <;> rfl

/-- C8 as stated fails: a live query whose cursor is exhausted at the first call of
`it.Next` ends with no error, zero rows and `AllRowsReturnedTime` set, and with
`FirstRowReturnedTime` set as well, to the clock reading before the one of
`AllRowsReturnedTime`. -/
theorem C8_counterexample :
    (ExecuteQuery sampleRecord "p" "d" "EU" false commaDelimiter zeroRows
        World.start).exit = .returned () ∧
    (ExecuteQuery sampleRecord "p" "d" "EU" false commaDelimiter zeroRows
        World.start).qd.Error = none ∧
    (ExecuteQuery sampleRecord "p" "d" "EU" false commaDelimiter zeroRows
        World.start).qd.TotalRowsReturned = 0 ∧
    (ExecuteQuery sampleRecord "p" "d" "EU" false commaDelimiter zeroRows
        World.start).qd.AllRowsReturnedTime = 4 ∧
    (ExecuteQuery sampleRecord "p" "d" "EU" false commaDelimiter zeroRows
        World.start).qd.FirstRowReturnedTime = 3 ∧
    (ExecuteQuery sampleRecord "p" "d" "EU" false commaDelimiter zeroRows
        World.start).qd.FirstRowReturnedTime ≠ 0 := by
  decide

/-- C8, amended: in every live execution that reaches row streaming,
`FirstRowReturnedTime` is set once, to the clock reading taken when the first call
of `it.Next` returns (the reading that follows the one of `QueryEndTime`),
whatever that call returns; so it is set also when the query returns zero rows.
For a cursor exhausted at the first call: `TotalRowsReturned == 0`,
`FirstRowReturnedTime` and then `AllRowsReturnedTime` are set, no row is written
and `Error` stays as it was (nil for a loaded record). -/
theorem C8_first_row_time_set_at_first_next (qd : QueryDetails)
    (project dataset location : String) (disableQueryCache : Bool) (b : UInt8)
    (rest : List UInt8) (env : LiveEnv) (w : World) (h : env.opensFile = true) :
    (ExecuteQuery qd project dataset location disableQueryCache (b :: rest) env
        w).qd.QueryEndTime = w.clock + 2 ∧
    (ExecuteQuery qd project dataset location disableQueryCache (b :: rest) env
        w).qd.FirstRowReturnedTime = w.clock + 3 ∧
    (ExecuteQuery qd project dataset location disableQueryCache (b :: rest) env
        w).qd.FirstRowReturnedTime ≠ 0 ∧
    (env.rows = [] → env.last = none →
      (ExecuteQuery qd project dataset location disableQueryCache (b :: rest) env
          w).qd.TotalRowsReturned = 0 ∧
      (ExecuteQuery qd project dataset location disableQueryCache (b :: rest) env
          w).qd.AllRowsReturnedTime = w.clock + 4 ∧
      (ExecuteQuery qd project dataset location disableQueryCache (b :: rest) env
          w).qd.Error = qd.Error ∧
      (ExecuteQuery qd project dataset location disableQueryCache (b :: rest) env
          w).world.events
        = w.events ++ openingEvents qd project dataset location disableQueryCache env
          ++ [Event.flush qd.OutputFile, Event.close qd.OutputFile]) := by
  rw [ExecuteQuery.eq_of_opensFile qd project dataset location disableQueryCache (b :: rest)
    env w h]
  refine ⟨?_, ?_, ?_, ?_⟩
  · simp only [delimiterComma, ExecuteQuery.loop_queryEndTime]
  · simp only [delimiterComma, ExecuteQuery.loop_first_of_zero]
  · simp [delimiterComma, ExecuteQuery.loop_first_of_zero]
  · intro hrows hlast
    rw [hrows, hlast]
    simp [delimiterComma, ExecuteQuery.loop, ExecuteQuery.stamp, World.now]

/-- C8, amended, on a record as loaded and a cursor exhausted at the first call. -/
theorem C8_first_row_time_set_at_first_next_witness :
    (ExecuteQuery sampleRecord "p" "d" "EU" false (44 :: []) zeroRows
        World.start).qd.QueryEndTime = World.start.clock + 2 ∧
    (ExecuteQuery sampleRecord "p" "d" "EU" false (44 :: []) zeroRows
        World.start).qd.FirstRowReturnedTime = World.start.clock + 3 :=
  have h := C8_first_row_time_set_at_first_next sampleRecord "p" "d" "EU" false 44 [] zeroRows
    World.start rfl
  ⟨h.1, h.2.1⟩

/-- C9 as stated fails: with the empty delimiter a run that has opened its output
file leaves `ExecuteQuery` at the out-of-range `delimiter[0]` of line 206, where
`w.Flush()` is not deferred yet: the file is created and closed, and nothing is
flushed. -/
theorem C9_counterexample :
    (ExecuteQuery sampleRecord "p" "d" "EU" false [] zeroRows World.start).exit
      = .panicked "index out of range [0] with length 0" ∧
    (ExecuteQuery sampleRecord "p" "d" "EU" false [] zeroRows World.start).world.events
      = [Event.mkdirAll sampleRecord.OutputFile,
          Event.read (queryOf sampleRecord "p" "d" "EU" false false),
          Event.create sampleRecord.OutputFile,
          Event.close sampleRecord.OutputFile] ∧
    Event.flush sampleRecord.OutputFile ∉
      (ExecuteQuery sampleRecord "p" "d" "EU" false [] zeroRows World.start).world.events := by
  decide

/-- C9, amended: on every exit path of `ExecuteQuery` taken after the output file
has been opened and the separator taken from a delimiter that is not empty (the
cursor is exhausted, a fetch fails, or a write fails), the events of the run are:
the directory if it was missing, the submission, the creation of the file, one
write per row written, then one `w.Flush()` and then one `f.Close()`; the writes
made before a failure stay.  With the empty delimiter the run leaves at line 206
right after the creation of the file, which is closed once and not flushed.  On
the paths that end before the file is opened the run returns having at most
created the directory and submitted the query: nothing is flushed or closed. -/
theorem C9_flush_then_close_on_every_path (qd : QueryDetails)
    (project dataset location : String) (disableQueryCache : Bool) (delimiter : List UInt8)
    (env : LiveEnv) (w : World) :
    (env.opensFile = true → delimiter ≠ [] →
      ∃ comma, delimiterComma delimiter = some comma ∧
        (ExecuteQuery qd project dataset location disableQueryCache delimiter env w).exit
          = .returned () ∧
        (ExecuteQuery qd project dataset location disableQueryCache delimiter env w).world.events
          = w.events ++ openingEvents qd project dataset location disableQueryCache env
            ++ (writtenRows env.rows).map (Event.write qd.OutputFile comma)
            ++ [Event.flush qd.OutputFile, Event.close qd.OutputFile]) ∧
    (env.opensFile = true → delimiter = [] →
      (ExecuteQuery qd project dataset location disableQueryCache delimiter env w).exit
        = .panicked "index out of range [0] with length 0" ∧
      (ExecuteQuery qd project dataset location disableQueryCache delimiter env w).world.events
        = w.events ++ openingEvents qd project dataset location disableQueryCache env
          ++ [Event.close qd.OutputFile]) ∧
    (env.opensFile = false →
      (ExecuteQuery qd project dataset location disableQueryCache delimiter env w).exit
        = .returned () ∧
      ∃ es : List Event,
        (ExecuteQuery qd project dataset location disableQueryCache delimiter env w).world.events
          = w.events ++ es ∧
        ∀ e ∈ es, (∃ path, e = Event.mkdirAll path) ∨ (∃ q, e = Event.read q)) := by
  refine ⟨?_, ?_, ?_⟩
  · intro h hd
    cases delimiter with
    | nil => exact absurd rfl hd
    | cons b rest =>
      refine ⟨b.toNat, rfl, ?_, ?_⟩
      · rw [ExecuteQuery.eq_of_opensFile _ _ _ _ _ _ _ _ h]; rfl
      · rw [ExecuteQuery.eq_of_opensFile _ _ _ _ _ _ _ _ h]
        simp only [delimiterComma, ExecuteQuery.loop_events]
  · intro h hd
    subst hd
    rw [ExecuteQuery.eq_of_opensFile _ _ _ _ _ _ _ _ h]
    exact ⟨rfl, rfl⟩
  · intro h
    obtain ⟨h1, _, h3⟩ := ExecuteQuery.of_not_opensFile qd project dataset location
      disableQueryCache delimiter env w h
    refine ⟨h1, _, h3, ?_⟩
    intro e he
    split at he
    · simp at he
    · rcases List.mem_append.mp he with hm | hr
      · split at hm
        · exact Or.inl ⟨_, List.mem_singleton.mp hm⟩
        · simp at hm
      · exact Or.inr ⟨_, List.mem_singleton.mp hr⟩

/-- C9, amended, on a run that writes two rows and then meets a fetch error, and
on a run whose submission fails. -/
theorem C9_flush_then_close_on_every_path_witness :
    (∃ comma, delimiterComma commaDelimiter = some comma ∧
      (ExecuteQuery sampleRecord "p" "d" "EU" false commaDelimiter brokenStream
          World.start).exit = .returned () ∧
      (ExecuteQuery sampleRecord "p" "d" "EU" false commaDelimiter brokenStream
          World.start).world.events
        = World.start.events ++ openingEvents sampleRecord "p" "d" "EU" false brokenStream
          ++ (writtenRows brokenStream.rows).map (Event.write sampleRecord.OutputFile comma)
          ++ [Event.flush sampleRecord.OutputFile, Event.close sampleRecord.OutputFile]) ∧
    (ExecuteQuery sampleRecord "p" "d" "EU" false commaDelimiter brokenStream
        World.start).world.events
      = [Event.mkdirAll sampleRecord.OutputFile,
          Event.read (queryOf sampleRecord "p" "d" "EU" false false),
          Event.create sampleRecord.OutputFile,
          Event.write sampleRecord.OutputFile 44 ["1", "a"],
          Event.write sampleRecord.OutputFile 44 ["2", "b"],
          Event.flush sampleRecord.OutputFile,
          Event.close sampleRecord.OutputFile] ∧
    (ExecuteQuery sampleRecord "p" "d" "EU" false commaDelimiter submissionFails
        World.start).exit = .returned () :=
  have h := C9_flush_then_close_on_every_path sampleRecord "p" "d" "EU" false commaDelimiter
  ⟨(h brokenStream World.start).1 rfl (by decide), by decide,
    ((h submissionFails World.start).2.2 rfl).1⟩

/-! ## The separator -/

/-- The conversion of line 206 takes the first byte. -/
theorem delimiterComma_eq_head (delimiter : List UInt8) :
    delimiterComma delimiter = delimiter.head?.map UInt8.toNat := by
  cases delimiter <;> rfl

/-- The first byte of a text that starts with `c` is the first byte of the
encoding of `c`. -/
theorem goBytes_head (c : Char) (rest : List Char) :
    (goBytes (String.mk (c :: rest))).head? = (String.utf8EncodeChar c).head? := by
  have hne : String.utf8EncodeChar c ≠ [] := by
    intro h
    have hl := String.length_utf8EncodeChar c
    rw [h] at hl
    have := Char.utf8Size_pos c
    simp at hl
    omega
  simp only [goBytes, List.flatMap_cons]
  exact List.head?_append_of_ne_nil _ hne

theorem byte_toNat_lt (b : UInt8) : b.toNat < 256 := b.toBitVec.isLt

theorem uint32_ofNat_toNat (v : UInt32) : UInt32.ofNat v.toNat = v := by
  cases v with
  | mk bv =>
    apply UInt32.eq_of_toBitVec_eq
    apply BitVec.eq_of_toNat_eq
    simp [UInt32.ofNat, UInt32.toNat]

/-- The lead byte of a two-byte encoding, for the code points `128..255`: it is
the code point itself only at `195`. -/
theorem leadByte_ne (n : Nat) (h1 : 128 ≤ n) (h2 : n ≤ 255) (h3 : n ≠ 195) :
    ((UInt32.ofNat n >>> 6).toUInt8 &&& 0x1f ||| 0xc0).toNat ≠ n := by
  interval_cases n <;> first | exact absurd rfl h3 | decide

/-- A character of one byte is encoded as the byte of its code point. -/
theorem utf8_head_of_ascii (c : Char) (h : c.toNat < 128) :
    (String.utf8EncodeChar c).head?.map UInt8.toNat = some c.toNat := by
  have hc : c.toNat = c.val.toNat := rfl
  unfold String.utf8EncodeChar
  have h1 : c.val ≤ 0x7f := by
    rw [UInt32.le_def]; simp only [BitVec.le_def]
    show c.val.toNat ≤ 127
    omega
  simp only [h1, if_true, List.head?_cons, Option.map_some']
  congr 1
  show c.val.toNat % 256 = c.val.toNat
  omega

/-- The first byte of the encoding of a character of several bytes is not its
code point, except for U+00C3. -/
theorem utf8_head_of_multibyte (c : Char) (h : 128 ≤ c.toNat) (h195 : c.toNat ≠ 195) :
    (String.utf8EncodeChar c).head?.map UInt8.toNat ≠ some c.toNat := by
  have hc : c.toNat = c.val.toNat := rfl
  by_cases hsmall : c.toNat ≤ 255
  · unfold String.utf8EncodeChar
    have h1 : ¬ c.val ≤ 0x7f := by
      rw [UInt32.le_def]; simp only [BitVec.le_def]
      show ¬ c.val.toNat ≤ 127
      omega
    have h2 : c.val ≤ 0x7ff := by
      rw [UInt32.le_def]; simp only [BitVec.le_def]
      show c.val.toNat ≤ 2047
      omega
    simp only [h1, if_false, h2, if_true, List.head?_cons, Option.map_some', ne_eq,
      Option.some.injEq]
    have := leadByte_ne c.val.toNat (by omega) (by omega) (by omega)
    rw [uint32_ofNat_toNat] at this
    rw [hc]; exact this
  · intro heq
    obtain ⟨b, _, hb⟩ := Option.map_eq_some'.mp heq
    have := byte_toNat_lt b
    omega

/-- C10 as stated fails at the delimiter `Ã` (U+00C3): the character is encoded in
two bytes, the first of which, `0xC3`, is the code point of the character, so the
separator `rune(delimiter[0])` is the first character of the delimiter. -/
theorem C10_counterexample :
    (String.utf8EncodeChar (Char.ofNat 195)).length = 2 ∧
    delimiterComma (goBytes (String.mk [Char.ofNat 195])) = some (Char.ofNat 195).toNat ∧
    (ExecuteQuery sampleRecord "p" "d" "EU" false (goBytes (String.mk [Char.ofNat 195]))
        brokenStream World.start).world.events
      = [Event.mkdirAll sampleRecord.OutputFile,
          Event.read (queryOf sampleRecord "p" "d" "EU" false false),
          Event.create sampleRecord.OutputFile,
          Event.write sampleRecord.OutputFile (Char.ofNat 195).toNat ["1", "a"],
          Event.write sampleRecord.OutputFile (Char.ofNat 195).toNat ["2", "b"],
          Event.flush sampleRecord.OutputFile,
          Event.close sampleRecord.OutputFile] := by
  decide

/-- C10, amended: the separator is the first byte of the delimiter taken as a code
point.  For a delimiter that is not empty the index is in range and the rows are
written with that byte as separator; when the delimiter is a text whose first
character is one byte long the separator is that character, and when the first
character is several bytes long and is not U+00C3 the separator differs from it.
For the empty delimiter a run that gets as far as opening the output file stops
with an index out of range after the submission and the creation of the file
(which is closed, not flushed), with `Error` as it was before the run; a run that
ends earlier returns. -/
theorem C10_separator_is_first_byte (qd : QueryDetails) (project dataset location : String)
    (disableQueryCache : Bool) (env : LiveEnv) (w : World) :
    (∀ (b : UInt8) (rest : List UInt8),
      delimiterComma (b :: rest) = some b.toNat ∧
      (env.opensFile = true →
        (ExecuteQuery qd project dataset location disableQueryCache (b :: rest) env
            w).world.events
          = w.events ++ openingEvents qd project dataset location disableQueryCache env
            ++ (writtenRows env.rows).map (Event.write qd.OutputFile b.toNat)
            ++ [Event.flush qd.OutputFile, Event.close qd.OutputFile])) ∧
    (∀ (c : Char) (rest : List Char), c.toNat < 128 →
      delimiterComma (goBytes (String.mk (c :: rest))) = some c.toNat) ∧
    (∀ (c : Char) (rest : List Char), 128 ≤ c.toNat → c.toNat ≠ 195 →
      delimiterComma (goBytes (String.mk (c :: rest))) ≠ some c.toNat) ∧
    (env.opensFile = true →
      (ExecuteQuery qd project dataset location disableQueryCache [] env w).exit
        = .panicked "index out of range [0] with length 0" ∧
      (ExecuteQuery qd project dataset location disableQueryCache [] env w).qd.Error
        = qd.Error ∧
      (ExecuteQuery qd project dataset location disableQueryCache [] env w).world.events
        = w.events ++ openingEvents qd project dataset location disableQueryCache env
          ++ [Event.close qd.OutputFile]) ∧
    (env.opensFile = false →
      (ExecuteQuery qd project dataset location disableQueryCache [] env w).exit
        = .returned ()) := by
  refine ⟨?_, ?_, ?_, ?_, ?_⟩
  · intro b rest
    refine ⟨rfl, fun h => ?_⟩
    rw [ExecuteQuery.eq_of_opensFile _ _ _ _ _ _ _ _ h]
    simp only [delimiterComma, ExecuteQuery.loop_events]
  · intro c rest h
    rw [delimiterComma_eq_head, goBytes_head]
    exact utf8_head_of_ascii c h
  · intro c rest h h195
    rw [delimiterComma_eq_head, goBytes_head]
    exact utf8_head_of_multibyte c h h195
  · intro h
    rw [ExecuteQuery.eq_of_opensFile _ _ _ _ _ _ _ _ h]
    exact ⟨rfl, rfl, rfl⟩
  · intro h
    exact (ExecuteQuery.of_not_opensFile qd project dataset location disableQueryCache [] env
      w h).1

/-- C10, amended, at the empty delimiter and at the delimiter `é` (U+00E9): the
run stops after the submission and the creation of the file, and the separator
taken from `é` is `Ã`. -/
theorem C10_separator_is_first_byte_witness :
    ((ExecuteQuery sampleRecord "p" "d" "EU" false [] zeroRows World.start).exit
        = .panicked "index out of range [0] with length 0" ∧
      (ExecuteQuery sampleRecord "p" "d" "EU" false [] zeroRows World.start).qd.Error
        = sampleRecord.Error ∧
      (ExecuteQuery sampleRecord "p" "d" "EU" false [] zeroRows World.start).world.events
        = World.start.events ++ openingEvents sampleRecord "p" "d" "EU" false zeroRows
          ++ [Event.close sampleRecord.OutputFile]) ∧
    delimiterComma (goBytes (String.mk (Char.ofNat 233 :: []))) ≠ some (Char.ofNat 233).toNat ∧
    delimiterComma (goBytes (String.mk (Char.ofNat 233 :: []))) = some 195 :=
  have h := C10_separator_is_first_byte sampleRecord "p" "d" "EU" false zeroRows World.start
  ⟨h.2.2.2.1 rfl, h.2.2.1 (Char.ofNat 233) [] (by decide) (by decide), by decide⟩

end Bqrunner
